import Mathlib

/-!
Shallow embedding of `fitsconcat.py` (repository Kitchi/fitsconcat).

The program concatenates single-channel FITS images into one 4-axis data
cube on disk.  We model:

* a FITS header as an association list of cards (key, value); astropys
  `header[key] = value` replaces the existing card in place or appends a
  new card at the end, and the serialized header is the card list plus an
  END card, padded to 2880-byte blocks of 36 cards of 80 bytes each;
* an input image (`FitsImage`) as its numpy shape (a list of axis
  extents, numpy order, i.e. reversed FITS axis order: the numpy shape of
  data with NAXIS1..NAXIS4 = (x, y, z, w) is (w, z, y, x)) together with a
  total pixel-value function `pix : List Nat -> Int` (index vector in
  numpy order).  Pixel values are modelled as integers: the program only
  ever copies values, so exactness of float32 plays no role;
* the output file (`FitsFile`) as its header, the four numpy axis extents
  `n0 n1 n2 n3` = (NAXIS4, NAXIS3, NAXIS2, NAXIS1), the byte size of the
  data region, and the cube contents as a total function
  `data : plane -> channel -> row -> col -> Int` (numpy index order).

Python `//` on nonnegative ints is `Int.fdiv`; `int(x/2)` for a
nonnegative dimension is floor division `x / 2` on `Nat`.
-/

namespace Fitsconcat

/-- A FITS header card value: integer, string, or boolean. -/
inductive HVal where
  | int (n : Int)
  | str (s : String)
  | bool (b : Bool)
deriving DecidableEq

/-- A FITS header: an ordered list of (keyword, value) cards. -/
abbrev Header := List (String × HVal)

/-- Astropy `header[key] = value`: replace the card with that keyword in
place if present, otherwise append a new card at the end. -/
def headerSet (h : Header) (k : String) (v : HVal) : Header :=
  if h.any (fun c => c.1 == k) then
    h.map (fun c => if c.1 == k then (k, v) else c)
  else
    h ++ [(k, v)]

/-- Read a header keyword (first matching card). -/
def headerGet (h : Header) (k : String) : Option HVal :=
  (h.find? (fun c => c.1 == k)).map (fun c => c.2)

/-- Byte size of the serialized header (`len(header.tostring())`): the
cards plus the END card, 80 bytes each, padded up to 2880-byte blocks
(36 cards per block). -/
def headerByteSize (h : Header) : Nat :=
  2880 * ((h.length + 1 + 35) / 36)

/-- An input FITS image: numpy shape and pixel values. -/
structure FitsImage where
  shape : List Nat
  pix : List Nat → Int

/-- The output FITS file: header, numpy-order axis extents
(`n0 n1 n2 n3` = NAXIS4, NAXIS3, NAXIS2, NAXIS1), data-region byte size,
and cube contents. -/
@[ext] structure FitsFile where
  header : Header
  n0 : Nat
  n1 : Nat
  n2 : Nat
  n3 : Nat
  dataSize : Nat
  data : Nat → Nat → Nat → Nat → Int

/-- Total size in bytes of the output file on disk. -/
def fileSize (f : FitsFile) : Nat := headerByteSize f.header + f.dataSize

/-- `np.squeeze`: remove all axes of extent 1 from a shape. -/
def squeeze (shape : List Nat) : List Nat := shape.filter (fun d => d != 1)

/-- `xdim` of line 22: `np.squeeze(hud[0].data).shape[-2:]`, first
component (second-to-last squeezed axis of the first image). -/
def spatialX (imlist : List FitsImage) : Nat :=
  match imlist with
  | [] => 0
  | img0 :: _ => (squeeze img0.shape).getD ((squeeze img0.shape).length - 2) 0

/-- `ydim` of line 22: last squeezed axis of the first image. -/
def spatialY (imlist : List FitsImage) : Nat :=
  match imlist with
  | [] => 0
  | img0 :: _ => (squeeze img0.shape).getD ((squeeze img0.shape).length - 1) 0

/-- Header of `fits.PrimaryHDU(data=np.zeros((1,1,1,1), dtype=np.float32))`:
SIMPLE, BITPIX = -32 (float32), NAXIS = 4, NAXIS1..NAXIS4 = 1, EXTEND. -/
def initHeader : Header :=
  [("SIMPLE", HVal.bool true), ("BITPIX", HVal.int (-32)), ("NAXIS", HVal.int 4),
   ("NAXIS1", HVal.int 1), ("NAXIS2", HVal.int 1), ("NAXIS3", HVal.int 1),
   ("NAXIS4", HVal.int 1), ("EXTEND", HVal.bool true)]

/-- The header-building loop of `make_empty_image` (lines 39-42): for each
`i, dim` in `enumerate(dims, 1)` set `NAXIS%d := dim` and (redundantly, on
every iteration) `CRPIX1 := int(xdim/2)`, `CRPIX2 := int(ydim/2)`. -/
def buildHeader (xdim ydim zdim wdim : Nat) : Header :=
  [("NAXIS1", xdim), ("NAXIS2", ydim), ("NAXIS3", zdim), ("NAXIS4", wdim)].foldl
    (fun h kv =>
      headerSet
        (headerSet (headerSet h kv.1 (HVal.int (kv.2 : Int))) "CRPIX1"
          (HVal.int ((xdim / 2 : Nat) : Int)))
        "CRPIX2" (HVal.int ((ydim / 2 : Nat) : Int)))
    initHeader

/-- `make_empty_image` (lines 10-58).  Returns `none` where the Python
code raises: an empty input list (`imlist[0]` fails) or a squeezed first
image of fewer than two axes (the 2-tuple unpacking of `shape[-2:]`
fails).  The file produced has the serialized header followed by a data
region sized by seeking to `header_size + data_size - 1` (with
`data_size` already padded to a 2880 multiple via Python floor division
`//`, i.e. `Int.fdiv`) and writing one byte, which extends the file to
`max currentSize (position + 1)` bytes. -/
def make_empty_image (imlist : List FitsImage) (nstokes : Nat) : Option FitsFile :=
  match imlist with
  | [] => none
  | img0 :: _ =>
    let sq := squeeze img0.shape
    if 2 ≤ sq.length then
      let xdim := sq.getD (sq.length - 2) 0
      let ydim := sq.getD (sq.length - 1) 0
      let zdim := imlist.length
      let wdim := nstokes
      let header := buildHeader xdim ydim zdim wdim
      let headerSize := headerByteSize header
      let dataSizeRaw : Int := ((xdim * ydim * zdim * wdim * 4 : Nat) : Int)
      let paddedDataSize : Int := 2880 * ((dataSizeRaw - 1).fdiv 2880 + 1)
      let finalSize : Int :=
        max (headerSize : Int) ((headerSize : Int) + paddedDataSize - 1 + 1)
      some { header := header, n0 := wdim, n1 := zdim, n2 := ydim, n3 := xdim,
             dataSize := (finalSize - (headerSize : Int)).toNat,
             data := fun _ _ _ _ => 0 }
    else none

/-- `update_fits_header` (lines 61-65): open in update mode and assign
each key of the dict in order. -/
def update_fits_header (f : FitsFile) (headerDict : List (String × HVal)) : FitsFile :=
  { f with header := headerDict.foldl (fun h kv => headerSet h kv.1 kv.2) f.header }

/-- Errors the fill code can raise: numpy IndexError (too many indices or
index out of bounds) and ValueError (shape mismatch in slice assignment
broadcast). -/
inductive FillErr where
  | indexError
  | valueError
deriving DecidableEq

/-- A numpy array slice: shape and values. -/
structure Slice where
  shape : List Nat
  pix : List Nat → Int

/-- `hdu[0].data[ss, 0, :, :]` on an input image: IndexError if the array
has fewer than 4 axes (too many indices) or if `ss` or `0` is out of
bounds; otherwise the sub-array obtained by fixing the first two axes. -/
def sliceGet (img : FitsImage) (ss : Nat) : Except FillErr Slice :=
  if img.shape.length < 4 then Except.error FillErr.indexError
  else if ss < img.shape.getD 0 0 ∧ 0 < img.shape.getD 1 0 then
    Except.ok { shape := img.shape.drop 2, pix := fun idx => img.pix (ss :: 0 :: idx) }
  else Except.error FillErr.indexError

/-- `outdata[ss, channo, :, :] = sl` on the 4-axis output cube:
IndexError if `ss` or `channo` is out of bounds; otherwise the slice must
broadcast to the spatial target shape `(n2, n3)` — a 2-d value whose axes
each equal the target extent or 1 — else ValueError.  On success the
affected spatial block of plane `ss`, channel `channo` takes the
(broadcast) slice values. -/
def setSlice (f : FitsFile) (ss chan : Nat) (sl : Slice) :
    Except FillErr (Nat → Nat → Nat → Nat → Int) :=
  if ss < f.n0 ∧ chan < f.n1 then
    if sl.shape.length = 2 ∧ (sl.shape.getD 0 0 = f.n2 ∨ sl.shape.getD 0 0 = 1) ∧
        (sl.shape.getD 1 0 = f.n3 ∨ sl.shape.getD 1 0 = 1) then
      Except.ok (fun s c y x =>
        if s = ss ∧ c = chan ∧ y < f.n2 ∧ x < f.n3 then
          sl.pix [if sl.shape.getD 0 0 = 1 then 0 else y,
                  if sl.shape.getD 1 0 = 1 then 0 else x]
        else f.data s c y x)
    else Except.error FillErr.valueError
  else Except.error FillErr.indexError

/-- One iteration of the plane loop (line 106):
`outdata[ss, channo, :, :] = hdu[0].data[ss, 0, :, :]` — the right-hand
slice is evaluated first, then assigned. -/
def insertStep (img : FitsImage) (chan : Nat) (f : FitsFile) (ss : Nat) :
    FitsFile × Option FillErr :=
  match sliceGet img ss with
  | Except.error e => (f, some e)
  | Except.ok sl =>
    match setSlice f ss chan sl with
    | Except.error e => (f, some e)
    | Except.ok d => ({ f with data := d }, none)

/-- The plane loop `for ss in range(nstokes)` (lines 105-106): an
exception aborts the loop, leaving the writes already made (the memmap
pages already dirtied reach the file). -/
def insertLoop (img : FitsImage) (chan : Nat) : List Nat → FitsFile → FitsFile × Option FillErr
  | [], f => (f, none)
  | ss :: rest, f =>
    match insertStep img chan f ss with
    | (f2, none) => insertLoop img chan rest f2
    | (f2, some e) => (f2, some e)

/-- `insert_channel(channo, outname, imlist, max_chan, nstokes)`
(lines 98-108); `max_chan` is only used for the progress print.
`imlist[channo]` out of range raises IndexError before anything is
written. -/
def insert_channel (chan : Nat) (f : FitsFile) (imlist : List FitsImage) (nstokes : Nat) :
    FitsFile × Option FillErr :=
  match imlist.get? chan with
  | none => (f, some FillErr.indexError)
  | some img => insertLoop img chan (List.range nstokes) f

/-- The channel loop of `fill_cube_with_images` (lines 81-85); its body is
the body of `insert_channel` inlined (same slice copies against the same
output file), and an exception aborts the whole loop. -/
def fillSeq (imlist : List FitsImage) (nstokes : Nat) :
    List Nat → FitsFile → FitsFile × Option FillErr
  | [], f => (f, none)
  | c :: cs, f =>
    match insert_channel c f imlist nstokes with
    | (f2, none) => fillSeq imlist nstokes cs f2
    | (f2, some e) => (f2, some e)

/-- The header dict built at lines 89-93 and 133-137: CRPIX3 = 1,
NAXIS3 = the given value, CTYPE3 = ("FREQ", ""). -/
def finalizeDict (naxis3 : Int) : List (String × HVal) :=
  [("CRPIX3", HVal.int 1), ("NAXIS3", HVal.int naxis3), ("CTYPE3", HVal.str "FREQ")]

/-- `fill_cube_with_images` (lines 69-95): fill channels 0..len-1 in
order; if that completes, update the header with
`highest_channel = outdata.shape[1] + 1` as NAXIS3. -/
def fill_cube_with_images (imlist : List FitsImage) (nstokes : Nat) (f : FitsFile) :
    FitsFile × Option FillErr :=
  match fillSeq imlist nstokes (List.range imlist.length) f with
  | (f2, some e) => (f2, some e)
  | (f2, none) => (update_fits_header f2 (finalizeDict ((f2.n1 : Int) + 1)), none)

/-- The on-disk effect of running a set of `insert_channel` units against
the shared output path, taken in the given order.  Each unit opens the
file independently; failed units keep the writes they made before
failing, and failures do not stop the other units. -/
def fillAllCont (imlist : List FitsImage) (nstokes : Nat) (cs : List Nat) (f : FitsFile) :
    FitsFile := cs.foldl (fun g c => (insert_channel c g imlist nstokes).1) f

/-- The per-unit outcomes of the pool in submission order.  A units error
depends only on the input shapes and the output dimensions, which no unit
changes, so each is computed against the skeleton state. -/
def mpErrs (imlist : List FitsImage) (nstokes : Nat) (f : FitsFile) : List (Option FillErr) :=
  (List.range imlist.length).map (fun c => (insert_channel c f imlist nstokes).2)

/-- `for s in sol: s.get()` — re-raise the first error in submission
order, if any. -/
def firstSome (l : List (Option FillErr)) : Option FillErr := (l.filterMap id).head?

/-- `fill_cube_with_images_multiprocess` (lines 111-139): submit one
`insert_channel` unit per channel, `pool.join()` (all units run to
completion regardless of failures elsewhere), then `s.get()` over the
results in submission order re-raises the first failure — in which case
the header finalization never happens. -/
def fill_cube_with_images_multiprocess (imlist : List FitsImage) (nstokes : Nat)
    (f : FitsFile) : FitsFile × Option FillErr :=
  let filled := fillAllCont imlist nstokes (List.range imlist.length) f
  match firstSome (mpErrs imlist nstokes f) with
  | some e => (filled, some e)
  | none => (update_fits_header filled (finalizeDict ((imlist.length : Nat) : Int)), none)

/-- Success condition of one plane-copy step, as a predicate on the input
image, channel, plane and output dimensions (the step touches nothing
else). -/
def stepOk (img : FitsImage) (chan ss n0 n1 n2 n3 : Nat) : Prop :=
  img.shape.length = 4 ∧ ss < img.shape.getD 0 0 ∧ 0 < img.shape.getD 1 0 ∧
  ss < n0 ∧ chan < n1 ∧
  (img.shape.getD 2 0 = n2 ∨ img.shape.getD 2 0 = 1) ∧
  (img.shape.getD 3 0 = n3 ∨ img.shape.getD 3 0 = 1)

instance (img : FitsImage) (chan ss n0 n1 n2 n3 : Nat) :
    Decidable (stepOk img chan ss n0 n1 n2 n3) := by
  unfold stepOk; infer_instance

/-- The planes a single `insert_channel` call actually writes: the prefix
of the plane loop before the first failing step. -/
def planesWritten (img : FitsImage) (chan n0 n1 n2 n3 : Nat) (sss : List Nat) : List Nat :=
  sss.takeWhile (fun ss => decide (stepOk img chan ss n0 n1 n2 n3))

/-- The value a successful plane copy writes at spatial position (y, x):
the input pixel at `[ss, 0, y, x]`, with a broadcast (extent-1) spatial
axis of the slice pinned to index 0. -/
def stepValAbs (img : FitsImage) (ss y x : Nat) : Int :=
  img.pix [ss, 0, if img.shape.getD 2 0 = 1 then 0 else y,
           if img.shape.getD 3 0 = 1 then 0 else x]

/-- Well-formedness of one input for the fill: a strict 4-axis numpy
array with at least `nstokes` planes, a nonempty second axis, and spatial
axes matching the output spatial extents. -/
def goodInput (f : FitsFile) (nstokes : Nat) (img : FitsImage) : Prop :=
  img.shape.length = 4 ∧ nstokes ≤ img.shape.getD 0 0 ∧ 1 ≤ img.shape.getD 1 0 ∧
  img.shape.getD 2 0 = f.n2 ∧ img.shape.getD 3 0 = f.n3



lemma getD_drop2 (l : List Nat) (n : Nat) : (l.drop 2).getD n 0 = l.getD (2 + n) 0 := by
  cases l with
  | nil => simp
  | cons a t =>
    cases t with
    | nil =>
      rw [List.getD_eq_default _ _ (by simp), List.getD_eq_default _ _ (by simp; omega)]
    | cons b t2 =>
      show t2.getD n 0 = (a :: b :: t2).getD (2 + n) 0
      rw [Nat.add_comm 2 n]
      simp [List.getD_cons_succ]

lemma sliceGet_of_ok (img : FitsImage) (ss : Nat) (h4 : 4 ≤ img.shape.length)
    (hs0 : ss < img.shape.getD 0 0) (hs1 : 0 < img.shape.getD 1 0) :
    sliceGet img ss =
      Except.ok ⟨img.shape.drop 2, fun idx => img.pix (ss :: 0 :: idx)⟩ := by
  unfold sliceGet
  rw [if_neg (by omega), if_pos ⟨hs0, hs1⟩]

lemma setSlice_of_ok (img : FitsImage) (chan : Nat) (f : FitsFile) (ss : Nat)
    (h : stepOk img chan ss f.n0 f.n1 f.n2 f.n3) :
    setSlice f ss chan ⟨img.shape.drop 2, fun idx => img.pix (ss :: 0 :: idx)⟩ =
      Except.ok (fun s c y x =>
        if s = ss ∧ c = chan ∧ y < f.n2 ∧ x < f.n3 then stepValAbs img ss y x
        else f.data s c y x) := by
  obtain ⟨h4, hs0, hs1, hn0, hn1, hb2, hb3⟩ := h
  unfold setSlice
  rw [if_pos ⟨hn0, hn1⟩]
  rw [if_pos ⟨by simp [List.length_drop, h4], by rw [getD_drop2]; exact hb2,
      by rw [getD_drop2]; exact hb3⟩]
  congr 1
  funext s c y x
  by_cases hc : s = ss ∧ c = chan ∧ y < f.n2 ∧ x < f.n3
  · rw [if_pos hc, if_pos hc]
    simp only [stepValAbs, getD_drop2]
  · rw [if_neg hc, if_neg hc]

lemma insertStep_of_ok (img : FitsImage) (chan : Nat) (f : FitsFile) (ss : Nat)
    (h : stepOk img chan ss f.n0 f.n1 f.n2 f.n3) :
    insertStep img chan f ss =
      ({ f with data := fun s c y x =>
          if s = ss ∧ c = chan ∧ y < f.n2 ∧ x < f.n3 then stepValAbs img ss y x
          else f.data s c y x }, none) := by
  simp only [insertStep, sliceGet_of_ok img ss h.1.ge h.2.1 h.2.2.1,
    setSlice_of_ok img chan f ss h]

lemma insertStep_preserve (img : FitsImage) (chan : Nat) (f : FitsFile) (ss : Nat) :
    ((insertStep img chan f ss).1).header = f.header ∧
    ((insertStep img chan f ss).1).n0 = f.n0 ∧ ((insertStep img chan f ss).1).n1 = f.n1 ∧
    ((insertStep img chan f ss).1).n2 = f.n2 ∧ ((insertStep img chan f ss).1).n3 = f.n3 ∧
    ((insertStep img chan f ss).1).dataSize = f.dataSize := by
  cases hsl : sliceGet img ss with
  | error e => simp [insertStep, hsl]
  | ok sl =>
    cases hd : setSlice f ss chan sl with
    | error e => simp [insertStep, hsl, hd]
    | ok d => simp [insertStep, hsl, hd]

lemma sliceGet_ok_elim (img : FitsImage) (ss : Nat) (sl : Slice)
    (hsl : sliceGet img ss = Except.ok sl) :
    4 ≤ img.shape.length ∧ ss < img.shape.getD 0 0 ∧ 0 < img.shape.getD 1 0 ∧
    sl = ⟨img.shape.drop 2, fun idx => img.pix (ss :: 0 :: idx)⟩ := by
  unfold sliceGet at hsl
  by_cases h4 : img.shape.length < 4
  · rw [if_pos h4] at hsl
    exact absurd hsl (by simp)
  · rw [if_neg h4] at hsl
    by_cases hin : ss < img.shape.getD 0 0 ∧ 0 < img.shape.getD 1 0
    · rw [if_pos hin] at hsl
      rw [Except.ok.injEq] at hsl
      exact ⟨by omega, hin.1, hin.2, hsl.symm⟩
    · rw [if_neg hin] at hsl
      exact absurd hsl (by simp)

lemma setSlice_ok_elim (f : FitsFile) (ss chan : Nat) (sl : Slice)
    (d : Nat → Nat → Nat → Nat → Int) (hd : setSlice f ss chan sl = Except.ok d) :
    ss < f.n0 ∧ chan < f.n1 ∧ sl.shape.length = 2 ∧
    (sl.shape.getD 0 0 = f.n2 ∨ sl.shape.getD 0 0 = 1) ∧
    (sl.shape.getD 1 0 = f.n3 ∨ sl.shape.getD 1 0 = 1) := by
  unfold setSlice at hd
  by_cases hout : ss < f.n0 ∧ chan < f.n1
  · rw [if_pos hout] at hd
    by_cases hsh : sl.shape.length = 2 ∧
        (sl.shape.getD 0 0 = f.n2 ∨ sl.shape.getD 0 0 = 1) ∧
        (sl.shape.getD 1 0 = f.n3 ∨ sl.shape.getD 1 0 = 1)
    · exact ⟨hout.1, hout.2, hsh.1, hsh.2.1, hsh.2.2⟩
    · rw [if_neg hsh] at hd
      exact absurd hd (by simp)
  · rw [if_neg hout] at hd
    exact absurd hd (by simp)

lemma insertStep_of_not_ok (img : FitsImage) (chan : Nat) (f : FitsFile) (ss : Nat)
    (h : ¬ stepOk img chan ss f.n0 f.n1 f.n2 f.n3) :
    (insertStep img chan f ss).1 = f ∧ (insertStep img chan f ss).2.isSome := by
  cases hsl : sliceGet img ss with
  | error e => simp [insertStep, hsl]
  | ok sl =>
    cases hd : setSlice f ss chan sl with
    | error e => simp [insertStep, hsl, hd]
    | ok d =>
      exfalso
      apply h
      obtain ⟨h4, hs0, hs1, rfl⟩ := sliceGet_ok_elim img ss sl hsl
      obtain ⟨hn0, hn1, hlen, hc2, hc3⟩ := setSlice_ok_elim f ss chan _ d hd
      rw [List.length_drop] at hlen
      rw [getD_drop2] at hc2 hc3
      exact ⟨by omega, hs0, hs1, hn0, hn1, hc2, hc3⟩

lemma setSlice_err_eq (f g : FitsFile) (ss chan : Nat) (sl : Slice)
    (h0 : f.n0 = g.n0) (h1 : f.n1 = g.n1) (h2 : f.n2 = g.n2) (h3 : f.n3 = g.n3) :
    (match setSlice f ss chan sl with
     | Except.error e => some e
     | Except.ok _ => (none : Option FillErr)) =
    (match setSlice g ss chan sl with
     | Except.error e => some e
     | Except.ok _ => none) := by
  unfold setSlice
  rw [h0, h1, h2, h3]
  split_ifs <;> rfl

lemma insertStep_snd_eq (img : FitsImage) (chan : Nat) (f g : FitsFile) (ss : Nat)
    (h0 : f.n0 = g.n0) (h1 : f.n1 = g.n1) (h2 : f.n2 = g.n2) (h3 : f.n3 = g.n3) :
    (insertStep img chan f ss).2 = (insertStep img chan g ss).2 := by
  cases hsl : sliceGet img ss with
  | error e => simp [insertStep, hsl]
  | ok sl =>
    have key := setSlice_err_eq f g ss chan sl h0 h1 h2 h3
    cases hdf : setSlice f ss chan sl with
    | error e1 =>
      cases hdg : setSlice g ss chan sl with
      | error e2 =>
        rw [hdf, hdg] at key
        simp at key
        simp [insertStep, hsl, hdf, hdg, key]
      | ok d2 =>
        rw [hdf, hdg] at key
        simp at key
    | ok d1 =>
      cases hdg : setSlice g ss chan sl with
      | error e2 =>
        rw [hdf, hdg] at key
        simp at key
      | ok d2 => simp [insertStep, hsl, hdf, hdg]


lemma insertLoop_preserve (img : FitsImage) (chan : Nat) :
    ∀ (sss : List Nat) (f : FitsFile),
    ((insertLoop img chan sss f).1).header = f.header ∧
    ((insertLoop img chan sss f).1).n0 = f.n0 ∧ ((insertLoop img chan sss f).1).n1 = f.n1 ∧
    ((insertLoop img chan sss f).1).n2 = f.n2 ∧ ((insertLoop img chan sss f).1).n3 = f.n3 ∧
    ((insertLoop img chan sss f).1).dataSize = f.dataSize := by
  intro sss
  induction sss with
  | nil => exact fun f => ⟨rfl, rfl, rfl, rfl, rfl, rfl⟩
  | cons ss rest ih =>
    intro f
    have hp := insertStep_preserve img chan f ss
    cases hstep : insertStep img chan f ss with
    | mk f2 oe =>
      rw [hstep] at hp
      obtain ⟨e1, e2, e3, e4, e5, e6⟩ := hp
      cases oe with
      | none =>
        simp only [insertLoop, hstep]
        have hr := ih f2
        exact ⟨hr.1.trans e1, hr.2.1.trans e2, hr.2.2.1.trans e3, hr.2.2.2.1.trans e4,
          hr.2.2.2.2.1.trans e5, hr.2.2.2.2.2.trans e6⟩
      | some e =>
        simp only [insertLoop, hstep]
        exact ⟨e1, e2, e3, e4, e5, e6⟩

lemma insertLoop_data (img : FitsImage) (chan : Nat) :
    ∀ (sss : List Nat) (f : FitsFile) (s c y x : Nat),
    (insertLoop img chan sss f).1.data s c y x =
      if c = chan ∧ s ∈ planesWritten img chan f.n0 f.n1 f.n2 f.n3 sss ∧ y < f.n2 ∧ x < f.n3
      then stepValAbs img s y x else f.data s c y x := by
  intro sss
  induction sss with
  | nil =>
    intro f s c y x
    simp [insertLoop, planesWritten]
  | cons ss rest ih =>
    intro f s c y x
    by_cases hok : stepOk img chan ss f.n0 f.n1 f.n2 f.n3
    · have hstep := insertStep_of_ok img chan f ss hok
      simp only [insertLoop, hstep]
      rw [ih]
      have hpw : planesWritten img chan f.n0 f.n1 f.n2 f.n3 (ss :: rest) =
          ss :: planesWritten img chan f.n0 f.n1 f.n2 f.n3 rest := by
        unfold planesWritten
        rw [List.takeWhile_cons, if_pos (by simpa using hok)]
      rw [hpw]
      by_cases hcc : c = chan
      · by_cases hy : y < f.n2
        · by_cases hx : x < f.n3
          · by_cases hm : s ∈ planesWritten img chan f.n0 f.n1 f.n2 f.n3 rest
            · simp [hcc, hy, hx, hm]
            · by_cases hss : s = ss
              · subst hss
                simp [hcc, hy, hx, hm]
              · simp [hcc, hy, hx, hm, hss]
          · simp [hx]
        · simp [hy]
      · simp [hcc]
    · obtain ⟨h1, h2⟩ := insertStep_of_not_ok img chan f ss hok
      cases hsnd : (insertStep img chan f ss).2 with
      | none => rw [hsnd] at h2; exact absurd h2 (by simp)
      | some e =>
        have hstep : insertStep img chan f ss = (f, some e) := by
          rw [Prod.ext_iff]
          exact ⟨h1, hsnd⟩
        simp only [insertLoop, hstep]
        have hpw : planesWritten img chan f.n0 f.n1 f.n2 f.n3 (ss :: rest) = [] := by
          unfold planesWritten
          rw [List.takeWhile_cons, if_neg (by simpa using hok)]
        rw [hpw]
        simp

lemma insertLoop_snd_eq (img : FitsImage) (chan : Nat) :
    ∀ (sss : List Nat) (f g : FitsFile),
    f.n0 = g.n0 → f.n1 = g.n1 → f.n2 = g.n2 → f.n3 = g.n3 →
    (insertLoop img chan sss f).2 = (insertLoop img chan sss g).2 := by
  intro sss
  induction sss with
  | nil => intro f g _ _ _ _; rfl
  | cons ss rest ih =>
    intro f g h0 h1 h2 h3
    have hsnd := insertStep_snd_eq img chan f g ss h0 h1 h2 h3
    have hpf := insertStep_preserve img chan f ss
    have hpg := insertStep_preserve img chan g ss
    cases hf : insertStep img chan f ss with
    | mk f2 oef =>
      cases hg : insertStep img chan g ss with
      | mk g2 oeg =>
        rw [hf, hg] at hsnd
        simp only at hsnd
        rw [hf] at hpf
        rw [hg] at hpg
        cases oef with
        | none =>
          cases oeg with
          | none =>
            simp only [insertLoop, hf, hg]
            exact ih f2 g2 (hpf.2.1.trans (h0.trans hpg.2.1.symm))
              (hpf.2.2.1.trans (h1.trans hpg.2.2.1.symm))
              (hpf.2.2.2.1.trans (h2.trans hpg.2.2.2.1.symm))
              (hpf.2.2.2.2.1.trans (h3.trans hpg.2.2.2.2.1.symm))
          | some e2 => exact absurd hsnd (by simp)
        | some e1 =>
          cases oeg with
          | none => exact absurd hsnd (by simp)
          | some e2 =>
            simp only [insertLoop, hf, hg]
            simpa using hsnd

lemma insertLoop_append (img : FitsImage) (chan : Nat) :
    ∀ (l1 l2 : List Nat) (f : FitsFile),
    insertLoop img chan (l1 ++ l2) f =
      match insertLoop img chan l1 f with
      | (f2, none) => insertLoop img chan l2 f2
      | (f2, some e) => (f2, some e) := by
  intro l1
  induction l1 with
  | nil => intro l2 f; rfl
  | cons ss rest ih =>
    intro l2 f
    show insertLoop img chan (ss :: (rest ++ l2)) f = _
    cases hstep : insertStep img chan f ss with
    | mk f2 oe =>
      cases oe with
      | none => simp only [insertLoop, hstep]; exact ih l2 f2
      | some e => simp only [insertLoop, hstep]


lemma insert_channel_preserve (chan : Nat) (f : FitsFile) (imlist : List FitsImage)
    (nstokes : Nat) :
    ((insert_channel chan f imlist nstokes).1).header = f.header ∧
    ((insert_channel chan f imlist nstokes).1).n0 = f.n0 ∧
    ((insert_channel chan f imlist nstokes).1).n1 = f.n1 ∧
    ((insert_channel chan f imlist nstokes).1).n2 = f.n2 ∧
    ((insert_channel chan f imlist nstokes).1).n3 = f.n3 ∧
    ((insert_channel chan f imlist nstokes).1).dataSize = f.dataSize := by
  cases hget : imlist.get? chan with
  | none =>
    unfold insert_channel
    rw [hget]
    exact ⟨rfl, rfl, rfl, rfl, rfl, rfl⟩
  | some img =>
    unfold insert_channel
    rw [hget]
    exact insertLoop_preserve img chan (List.range nstokes) f

lemma insert_channel_data (chan : Nat) (f : FitsFile) (imlist : List FitsImage)
    (nstokes : Nat) (s c y x : Nat) :
    (insert_channel chan f imlist nstokes).1.data s c y x =
      match imlist.get? chan with
      | none => f.data s c y x
      | some img =>
        if c = chan ∧ s ∈ planesWritten img chan f.n0 f.n1 f.n2 f.n3 (List.range nstokes) ∧
            y < f.n2 ∧ x < f.n3
        then stepValAbs img s y x else f.data s c y x := by
  cases hget : imlist.get? chan with
  | none =>
    unfold insert_channel
    rw [hget]
  | some img =>
    unfold insert_channel
    rw [hget]
    exact insertLoop_data img chan (List.range nstokes) f s c y x

lemma insert_channel_snd_eq (chan : Nat) (f g : FitsFile) (imlist : List FitsImage)
    (nstokes : Nat) (h0 : f.n0 = g.n0) (h1 : f.n1 = g.n1) (h2 : f.n2 = g.n2)
    (h3 : f.n3 = g.n3) :
    (insert_channel chan f imlist nstokes).2 = (insert_channel chan g imlist nstokes).2 := by
  cases hget : imlist.get? chan with
  | none =>
    unfold insert_channel
    rw [hget]
  | some img =>
    unfold insert_channel
    rw [hget]
    exact insertLoop_snd_eq img chan (List.range nstokes) f g h0 h1 h2 h3

lemma planesWritten_all_ok (img : FitsImage) (chan n0 n1 n2 n3 : Nat) :
    ∀ (sss : List Nat), (∀ ss ∈ sss, stepOk img chan ss n0 n1 n2 n3) →
    planesWritten img chan n0 n1 n2 n3 sss = sss := by
  intro sss
  induction sss with
  | nil => intro _; rfl
  | cons ss rest ih =>
    intro h
    unfold planesWritten
    rw [List.takeWhile_cons, if_pos (by simpa using h ss (List.mem_cons_self ss rest))]
    have := ih (fun a ha => h a (List.mem_cons_of_mem ss ha))
    unfold planesWritten at this
    rw [this]

lemma insertLoop_none_of_all_ok (img : FitsImage) (chan : Nat) :
    ∀ (sss : List Nat) (f : FitsFile),
    (∀ ss ∈ sss, stepOk img chan ss f.n0 f.n1 f.n2 f.n3) →
    (insertLoop img chan sss f).2 = none := by
  intro sss
  induction sss with
  | nil => intro f _; rfl
  | cons ss rest ih =>
    intro f h
    have hok := h ss (List.mem_cons_self ss rest)
    have hstep := insertStep_of_ok img chan f ss hok
    simp only [insertLoop, hstep]
    exact ih _ (fun a ha => h a (List.mem_cons_of_mem ss ha))

lemma goodInput_stepOk (f : FitsFile) (nstokes : Nat) (img : FitsImage) (chan ss : Nat)
    (hg : goodInput f nstokes img) (hss : ss < nstokes) (hn0 : nstokes ≤ f.n0)
    (hn1 : chan < f.n1) : stepOk img chan ss f.n0 f.n1 f.n2 f.n3 := by
  obtain ⟨h4, h0, h1, h2, h3⟩ := hg
  exact ⟨h4, by omega, by omega, by omega, hn1, Or.inl h2, Or.inl h3⟩

lemma insert_channel_good_none (chan : Nat) (f : FitsFile) (imlist : List FitsImage)
    (nstokes : Nat) (img : FitsImage) (hget : imlist.get? chan = some img)
    (hg : goodInput f nstokes img) (hn0 : nstokes ≤ f.n0) (hn1 : chan < f.n1) :
    (insert_channel chan f imlist nstokes).2 = none := by
  unfold insert_channel
  rw [hget]
  exact insertLoop_none_of_all_ok img chan (List.range nstokes) f
    (fun ss hss => goodInput_stepOk f nstokes img chan ss hg (List.mem_range.mp hss) hn0 hn1)

lemma insert_channel_good_data (chan : Nat) (f : FitsFile) (imlist : List FitsImage)
    (nstokes : Nat) (img : FitsImage) (hget : imlist.get? chan = some img)
    (hg : goodInput f nstokes img) (hn0 : nstokes ≤ f.n0) (hn1 : chan < f.n1)
    (s c y x : Nat) :
    (insert_channel chan f imlist nstokes).1.data s c y x =
      if c = chan ∧ s < nstokes ∧ y < f.n2 ∧ x < f.n3 then stepValAbs img s y x
      else f.data s c y x := by
  unfold insert_channel
  rw [hget]
  rw [insertLoop_data img chan (List.range nstokes) f s c y x]
  rw [planesWritten_all_ok img chan f.n0 f.n1 f.n2 f.n3 (List.range nstokes)
    (fun ss hss => goodInput_stepOk f nstokes img chan ss hg (List.mem_range.mp hss) hn0 hn1)]
  simp [List.mem_range]

lemma insert_channel_frame (chan : Nat) (f : FitsFile) (imlist : List FitsImage)
    (nstokes : Nat) (s c y x : Nat) (h : c ≠ chan ∨ nstokes ≤ s) :
    (insert_channel chan f imlist nstokes).1.data s c y x = f.data s c y x := by
  rw [insert_channel_data]
  cases hget : imlist.get? chan with
  | none => rfl
  | some img =>
    simp only
    rw [if_neg]
    rintro ⟨hcc, hm, -, -⟩
    rcases h with h | h
    · exact h hcc
    · have : s ∈ List.range nstokes := List.takeWhile_subset _ hm
      rw [List.mem_range] at this
      omega


lemma fillAllCont_nil (imlist : List FitsImage) (nstokes : Nat) (f : FitsFile) :
    fillAllCont imlist nstokes [] f = f := rfl

lemma fillAllCont_cons (imlist : List FitsImage) (nstokes : Nat) (c : Nat) (cs : List Nat)
    (f : FitsFile) :
    fillAllCont imlist nstokes (c :: cs) f =
      fillAllCont imlist nstokes cs ((insert_channel c f imlist nstokes).1) := rfl

lemma fillAllCont_preserve (imlist : List FitsImage) (nstokes : Nat) :
    ∀ (cs : List Nat) (f : FitsFile),
    (fillAllCont imlist nstokes cs f).header = f.header ∧
    (fillAllCont imlist nstokes cs f).n0 = f.n0 ∧
    (fillAllCont imlist nstokes cs f).n1 = f.n1 ∧
    (fillAllCont imlist nstokes cs f).n2 = f.n2 ∧
    (fillAllCont imlist nstokes cs f).n3 = f.n3 ∧
    (fillAllCont imlist nstokes cs f).dataSize = f.dataSize := by
  intro cs
  induction cs with
  | nil => exact fun f => ⟨rfl, rfl, rfl, rfl, rfl, rfl⟩
  | cons c cs ih =>
    intro f
    rw [fillAllCont_cons]
    obtain ⟨e1, e2, e3, e4, e5, e6⟩ := insert_channel_preserve c f imlist nstokes
    obtain ⟨r1, r2, r3, r4, r5, r6⟩ := ih ((insert_channel c f imlist nstokes).1)
    exact ⟨r1.trans e1, r2.trans e2, r3.trans e3, r4.trans e4, r5.trans e5, r6.trans e6⟩

lemma fillAllCont_frame (imlist : List FitsImage) (nstokes : Nat) :
    ∀ (cs : List Nat) (f : FitsFile) (s j y x : Nat), j ∉ cs →
    (fillAllCont imlist nstokes cs f).data s j y x = f.data s j y x := by
  intro cs
  induction cs with
  | nil => intro f s j y x _; rfl
  | cons c cs ih =>
    intro f s j y x hj
    rw [fillAllCont_cons]
    rw [ih _ s j y x (fun hmem => hj (List.mem_cons_of_mem c hmem))]
    exact insert_channel_frame c f imlist nstokes s j y x
      (Or.inl (fun heq => hj (heq ▸ List.mem_cons_self c cs)))

lemma goodInput_congr (f g : FitsFile) (nstokes : Nat) (img : FitsImage)
    (h2 : f.n2 = g.n2) (h3 : f.n3 = g.n3) :
    goodInput f nstokes img ↔ goodInput g nstokes img := by
  unfold goodInput
  rw [h2, h3]

lemma fillAllCont_good_data (imlist : List FitsImage) (nstokes : Nat) :
    ∀ (cs : List Nat) (f : FitsFile) (c : Nat) (img : FitsImage), c ∈ cs →
    imlist.get? c = some img → goodInput f nstokes img → nstokes ≤ f.n0 → c < f.n1 →
    ∀ (s y x : Nat), s < nstokes → y < f.n2 → x < f.n3 →
    (fillAllCont imlist nstokes cs f).data s c y x = stepValAbs img s y x := by
  intro cs
  induction cs with
  | nil => intro f c img hmem; exact absurd hmem (List.not_mem_nil c)
  | cons a cs ih =>
    intro f c img hmem hget hg hn0 hn1 s y x hs hy hx
    rw [fillAllCont_cons]
    obtain ⟨e1, e2, e3, e4, e5, e6⟩ := insert_channel_preserve a f imlist nstokes
    by_cases hc : c ∈ cs
    · exact ih _ c img hc hget ((goodInput_congr _ _ nstokes img e4 e5).mpr hg)
        (by omega) (by omega) s y x hs (by omega) (by omega)
    · have hca : c = a := by
        rcases List.mem_cons.mp hmem with h | h
        · exact h
        · exact absurd h hc
      subst hca
      rw [fillAllCont_frame imlist nstokes cs _ s c y x hc]
      rw [insert_channel_good_data c f imlist nstokes img hget hg hn0 hn1 s c y x]
      rw [if_pos ⟨rfl, hs, hy, hx⟩]


lemma insert_channel_get_none (chan : Nat) (f : FitsFile) (imlist : List FitsImage)
    (nstokes : Nat) (hget : imlist.get? chan = none) :
    (insert_channel chan f imlist nstokes).1 = f := by
  unfold insert_channel
  rw [hget]

lemma insert_channel_data_some (chan : Nat) (f : FitsFile) (imlist : List FitsImage)
    (nstokes : Nat) (img : FitsImage) (hget : imlist.get? chan = some img) (s c y x : Nat) :
    (insert_channel chan f imlist nstokes).1.data s c y x =
      if c = chan ∧ s ∈ planesWritten img chan f.n0 f.n1 f.n2 f.n3 (List.range nstokes) ∧
          y < f.n2 ∧ x < f.n3
      then stepValAbs img s y x else f.data s c y x := by
  unfold insert_channel
  rw [hget]
  exact insertLoop_data img chan (List.range nstokes) f s c y x

lemma insert_comm (imlist : List FitsImage) (nstokes : Nat) (a b : Nat) (g : FitsFile) :
    (insert_channel b (insert_channel a g imlist nstokes).1 imlist nstokes).1 =
    (insert_channel a (insert_channel b g imlist nstokes).1 imlist nstokes).1 := by
  by_cases hab : a = b
  · subst hab; rfl
  · cases hga : imlist.get? a with
    | none =>
      rw [insert_channel_get_none a g imlist nstokes hga,
        insert_channel_get_none a ((insert_channel b g imlist nstokes).1) imlist nstokes hga]
    | some imga =>
      cases hgb : imlist.get? b with
      | none =>
        rw [insert_channel_get_none b ((insert_channel a g imlist nstokes).1) imlist nstokes hgb,
          insert_channel_get_none b g imlist nstokes hgb]
      | some imgb =>
        obtain ⟨a1, a2, a3, a4, a5, a6⟩ := insert_channel_preserve a g imlist nstokes
        obtain ⟨b1, b2, b3, b4, b5, b6⟩ := insert_channel_preserve b g imlist nstokes
        obtain ⟨ba1, ba2, ba3, ba4, ba5, ba6⟩ :=
          insert_channel_preserve b ((insert_channel a g imlist nstokes).1) imlist nstokes
        obtain ⟨ab1, ab2, ab3, ab4, ab5, ab6⟩ :=
          insert_channel_preserve a ((insert_channel b g imlist nstokes).1) imlist nstokes
        apply FitsFile.ext
        · rw [ba1, a1, ab1, b1]
        · rw [ba2, a2, ab2, b2]
        · rw [ba3, a3, ab3, b3]
        · rw [ba4, a4, ab4, b4]
        · rw [ba5, a5, ab5, b5]
        · rw [ba6, a6, ab6, b6]
        · funext s c y x
          rw [insert_channel_data_some b ((insert_channel a g imlist nstokes).1) imlist
            nstokes imgb hgb s c y x]
          rw [insert_channel_data_some a g imlist nstokes imga hga s c y x]
          rw [insert_channel_data_some a ((insert_channel b g imlist nstokes).1) imlist
            nstokes imga hga s c y x]
          rw [insert_channel_data_some b g imlist nstokes imgb hgb s c y x]
          simp only [a2, a3, a4, a5, b2, b3, b4, b5]
          by_cases hcb : c = b ∧
              s ∈ planesWritten imgb b g.n0 g.n1 g.n2 g.n3 (List.range nstokes) ∧
              y < g.n2 ∧ x < g.n3
          · have hnca : ¬(c = a ∧
                s ∈ planesWritten imga a g.n0 g.n1 g.n2 g.n3 (List.range nstokes) ∧
                y < g.n2 ∧ x < g.n3) := by
              rintro ⟨rfl, -, -⟩
              exact hab (hcb.1.symm ▸ rfl)
            rw [if_pos hcb, if_neg hnca, if_pos hcb]
          · rw [if_neg hcb]
            by_cases hca : c = a ∧
                s ∈ planesWritten imga a g.n0 g.n1 g.n2 g.n3 (List.range nstokes) ∧
                y < g.n2 ∧ x < g.n3
            · rw [if_pos hca, if_pos hca]
            · rw [if_neg hca, if_neg hca, if_neg hcb]

lemma fillAllCont_perm (imlist : List FitsImage) (nstokes : Nat) {cs1 cs2 : List Nat}
    (h : cs1.Perm cs2) :
    ∀ f, fillAllCont imlist nstokes cs1 f = fillAllCont imlist nstokes cs2 f := by
  induction h with
  | nil => intro f; rfl
  | cons a h ih =>
    intro f
    rw [fillAllCont_cons, fillAllCont_cons, ih]
  | swap a b l =>
    intro f
    rw [fillAllCont_cons, fillAllCont_cons, fillAllCont_cons, fillAllCont_cons, insert_comm]
  | trans h1 h2 ih1 ih2 =>
    intro f
    rw [ih1, ih2]

lemma fillSeq_none_eq (imlist : List FitsImage) (nstokes : Nat) :
    ∀ (cs : List Nat) (f : FitsFile), (fillSeq imlist nstokes cs f).2 = none →
    (fillSeq imlist nstokes cs f).1 = fillAllCont imlist nstokes cs f ∧
    ∀ c ∈ cs, (insert_channel c f imlist nstokes).2 = none := by
  intro cs
  induction cs with
  | nil => intro f _; exact ⟨rfl, fun c hc => absurd hc (List.not_mem_nil c)⟩
  | cons c cs ih =>
    intro f hnone
    cases hstep : insert_channel c f imlist nstokes with
    | mk f2 oe =>
      cases oe with
      | some e =>
        rw [show fillSeq imlist nstokes (c :: cs) f = (f2, some e) by
          simp only [fillSeq, hstep]] at hnone
        exact absurd hnone (by simp)
      | none =>
        have hrec : fillSeq imlist nstokes (c :: cs) f = fillSeq imlist nstokes cs f2 := by
          simp only [fillSeq, hstep]
        rw [hrec] at hnone ⊢
        obtain ⟨hq, hall⟩ := ih f2 hnone
        have hf2 : (insert_channel c f imlist nstokes).1 = f2 := by rw [hstep]
        constructor
        · rw [hq, fillAllCont_cons, hf2]
        · intro d hd
          rcases List.mem_cons.mp hd with h | h
          · subst h
            rw [hstep]
          · obtain ⟨e1, e2, e3, e4, e5, e6⟩ := insert_channel_preserve c f imlist nstokes
            rw [hf2] at e2 e3 e4 e5
            rw [insert_channel_snd_eq d f f2 imlist nstokes e2.symm e3.symm e4.symm e5.symm]
            exact hall d h

lemma fillSeq_preserve (imlist : List FitsImage) (nstokes : Nat) :
    ∀ (cs : List Nat) (f : FitsFile),
    ((fillSeq imlist nstokes cs f).1).header = f.header ∧
    ((fillSeq imlist nstokes cs f).1).n0 = f.n0 ∧
    ((fillSeq imlist nstokes cs f).1).n1 = f.n1 ∧
    ((fillSeq imlist nstokes cs f).1).n2 = f.n2 ∧
    ((fillSeq imlist nstokes cs f).1).n3 = f.n3 ∧
    ((fillSeq imlist nstokes cs f).1).dataSize = f.dataSize := by
  intro cs
  induction cs with
  | nil => exact fun f => ⟨rfl, rfl, rfl, rfl, rfl, rfl⟩
  | cons c cs ih =>
    intro f
    obtain ⟨e1, e2, e3, e4, e5, e6⟩ := insert_channel_preserve c f imlist nstokes
    cases hstep : insert_channel c f imlist nstokes with
    | mk f2 oe =>
      rw [hstep] at e1 e2 e3 e4 e5 e6
      cases oe with
      | none =>
        have hrec : fillSeq imlist nstokes (c :: cs) f = fillSeq imlist nstokes cs f2 := by
          simp only [fillSeq, hstep]
        rw [hrec]
        obtain ⟨r1, r2, r3, r4, r5, r6⟩ := ih f2
        exact ⟨r1.trans e1, r2.trans e2, r3.trans e3, r4.trans e4, r5.trans e5, r6.trans e6⟩
      | some e =>
        have hrec : fillSeq imlist nstokes (c :: cs) f = (f2, some e) := by
          simp only [fillSeq, hstep]
        rw [hrec]
        exact ⟨e1, e2, e3, e4, e5, e6⟩


lemma buildHeader_eq (x y z w : Nat) : buildHeader x y z w =
    [("SIMPLE", HVal.bool true), ("BITPIX", HVal.int (-32)), ("NAXIS", HVal.int 4),
     ("NAXIS1", HVal.int (x : Int)), ("NAXIS2", HVal.int (y : Int)),
     ("NAXIS3", HVal.int (z : Int)), ("NAXIS4", HVal.int (w : Int)),
     ("EXTEND", HVal.bool true),
     ("CRPIX1", HVal.int ((x / 2 : Nat) : Int)),
     ("CRPIX2", HVal.int ((y / 2 : Nat) : Int))] := by
  simp [buildHeader, initHeader, headerSet]

lemma buildHeader_size (x y z w : Nat) : headerByteSize (buildHeader x y z w) = 2880 := by
  rw [buildHeader_eq]
  simp [headerByteSize]

lemma finalize_buildHeader_eq (x y z w : Nat) (v : Int) :
    (finalizeDict v).foldl (fun h kv => headerSet h kv.1 kv.2) (buildHeader x y z w) =
    [("SIMPLE", HVal.bool true), ("BITPIX", HVal.int (-32)), ("NAXIS", HVal.int 4),
     ("NAXIS1", HVal.int (x : Int)), ("NAXIS2", HVal.int (y : Int)),
     ("NAXIS3", HVal.int v), ("NAXIS4", HVal.int (w : Int)),
     ("EXTEND", HVal.bool true),
     ("CRPIX1", HVal.int ((x / 2 : Nat) : Int)),
     ("CRPIX2", HVal.int ((y / 2 : Nat) : Int)),
     ("CRPIX3", HVal.int 1), ("CTYPE3", HVal.str "FREQ")] := by
  rw [buildHeader_eq]
  simp [finalizeDict, headerSet]

/-- Raw data byte size of line 50: product of the four dims times the
float32 item size. -/
def rawDataSize (imlist : List FitsImage) (nstokes : Nat) : Nat :=
  spatialX imlist * spatialY imlist * imlist.length * nstokes * 4

/-- The padding of lines 53-54: `block_size * (((data_size - 1) // block_size) + 1)`
with Python floor division. -/
def paddedSize (n : Nat) : Int := 2880 * (((n : Int) - 1).fdiv 2880 + 1)

/-- The byte count the one-byte write at offset `headerSize + dataSize - 1`
leaves past the header: the file is extended to `position + 1` bytes when
that exceeds its current size. -/
def skelDataSize (hs : Nat) (raw : Nat) : Int :=
  max (hs : Int) ((hs : Int) + paddedSize raw - 1 + 1) - (hs : Int)

lemma make_empty_image_cons (img0 : FitsImage) (rest : List FitsImage) (nstokes : Nat) :
    make_empty_image (img0 :: rest) nstokes =
      (if 2 ≤ (squeeze img0.shape).length then
        some { header := buildHeader (spatialX (img0 :: rest)) (spatialY (img0 :: rest))
                 ((img0 :: rest).length) nstokes,
               n0 := nstokes, n1 := (img0 :: rest).length,
               n2 := spatialY (img0 :: rest), n3 := spatialX (img0 :: rest),
               dataSize := (skelDataSize
                 (headerByteSize (buildHeader (spatialX (img0 :: rest))
                   (spatialY (img0 :: rest)) ((img0 :: rest).length) nstokes))
                 (rawDataSize (img0 :: rest) nstokes)).toNat,
               data := fun _ _ _ _ => 0 }
      else none) := rfl

lemma make_empty_image_elim (imlist : List FitsImage) (nstokes : Nat) (f : FitsFile)
    (h : make_empty_image imlist nstokes = some f) :
    f.header = buildHeader (spatialX imlist) (spatialY imlist) imlist.length nstokes ∧
    f.n0 = nstokes ∧ f.n1 = imlist.length ∧
    f.n2 = spatialY imlist ∧ f.n3 = spatialX imlist ∧
    (f.dataSize : Int) = skelDataSize 2880 (rawDataSize imlist nstokes) ∧
    f.data = fun _ _ _ _ => 0 := by
  cases imlist with
  | nil => exact absurd h (by simp [make_empty_image])
  | cons img0 rest =>
    rw [make_empty_image_cons] at h
    by_cases hsq : 2 ≤ (squeeze img0.shape).length
    · rw [if_pos hsq] at h
      simp only [Option.some.injEq] at h
      have hnn : (0 : Int) ≤ skelDataSize 2880 (rawDataSize (img0 :: rest) nstokes) := by
        unfold skelDataSize
        have := le_max_left ((2880 : Nat) : Int)
          (((2880 : Nat) : Int) + paddedSize (rawDataSize (img0 :: rest) nstokes) - 1 + 1)
        omega
      refine ⟨?_, ?_, ?_, ?_, ?_, ?_, ?_⟩
      · rw [← h]
      · rw [← h]
      · rw [← h]
      · rw [← h]
      · rw [← h]
      · rw [← h]
        show ((skelDataSize (headerByteSize (buildHeader (spatialX (img0 :: rest))
          (spatialY (img0 :: rest)) ((img0 :: rest).length) nstokes))
          (rawDataSize (img0 :: rest) nstokes)).toNat : Int) = _
        rw [buildHeader_size]
        rw [Int.toNat_of_nonneg hnn]
      · rw [← h]
    · rw [if_neg hsq] at h
      exact absurd h (by simp)

lemma ceil_div_2880 (n q : Nat) (hn : 1 ≤ n) (hq : q = (n - 1) / 2880) :
    ⌈(n : ℚ) / 2880⌉ = (q : Int) + 1 := by
  have hdm := Nat.div_add_mod (n - 1) 2880
  have hlt : (n - 1) % 2880 < 2880 := Nat.mod_lt _ (by norm_num)
  have h1 : q * 2880 + 1 ≤ n := by omega
  have h2 : n ≤ (q + 1) * 2880 := by omega
  rw [Int.ceil_eq_iff]
  constructor
  · push_cast
    rw [lt_div_iff (by norm_num : (0 : ℚ) < 2880)]
    have hc := (Nat.cast_le (α := ℚ)).mpr h1
    push_cast at hc
    linarith
  · push_cast
    rw [div_le_iff (by norm_num : (0 : ℚ) < 2880)]
    have hc := (Nat.cast_le (α := ℚ)).mpr h2
    push_cast at hc
    linarith

lemma paddedSize_eq_ceil (n : Nat) (hn : 1 ≤ n) :
    paddedSize n = 2880 * ⌈(n : ℚ) / 2880⌉ := by
  unfold paddedSize
  rw [ceil_div_2880 n ((n - 1) / 2880) hn rfl]
  congr 1
  rw [show ((n : Int) - 1) = ((n - 1 : Nat) : Int) by omega]
  rw [show (2880 : Int) = ((2880 : Nat) : Int) from rfl]
  rw [← Int.ofNat_fdiv]


lemma update_fits_header_eq (f : FitsFile) (dict : List (String × HVal)) :
    update_fits_header f dict =
      { f with header := dict.foldl (fun h kv => headerSet h kv.1 kv.2) f.header } := rfl

lemma finalize_buildHeader_size (x y z w : Nat) (v : Int) :
    headerByteSize ((finalizeDict v).foldl (fun h kv => headerSet h kv.1 kv.2)
      (buildHeader x y z w)) = 2880 := by
  rw [finalize_buildHeader_eq]
  simp [headerByteSize]

lemma fileSize_update_finalize (f : FitsFile) (x y z w : Nat) (v : Int)
    (hh : f.header = buildHeader x y z w) :
    fileSize (update_fits_header f (finalizeDict v)) = fileSize f := by
  unfold fileSize update_fits_header
  simp only
  rw [hh, finalize_buildHeader_size, buildHeader_size]

lemma fileSize_insert (chan : Nat) (f : FitsFile) (imlist : List FitsImage) (nstokes : Nat) :
    fileSize (insert_channel chan f imlist nstokes).1 = fileSize f := by
  obtain ⟨e1, -, -, -, -, e6⟩ := insert_channel_preserve chan f imlist nstokes
  unfold fileSize
  rw [e1, e6]

lemma fileSize_fillAllCont (imlist : List FitsImage) (nstokes : Nat) (cs : List Nat)
    (f : FitsFile) : fileSize (fillAllCont imlist nstokes cs f) = fileSize f := by
  obtain ⟨e1, -, -, -, -, e6⟩ := fillAllCont_preserve imlist nstokes cs f
  unfold fileSize
  rw [e1, e6]

lemma fileSize_fillSeq (imlist : List FitsImage) (nstokes : Nat) (cs : List Nat)
    (f : FitsFile) : fileSize (fillSeq imlist nstokes cs f).1 = fileSize f := by
  obtain ⟨e1, -, -, -, -, e6⟩ := fillSeq_preserve imlist nstokes cs f
  unfold fileSize
  rw [e1, e6]

lemma fill_mp_err (imlist : List FitsImage) (nstokes : Nat) (f : FitsFile) (e : FillErr)
    (h : firstSome (mpErrs imlist nstokes f) = some e) :
    fill_cube_with_images_multiprocess imlist nstokes f =
      (fillAllCont imlist nstokes (List.range imlist.length) f, some e) := by
  unfold fill_cube_with_images_multiprocess
  rw [h]

lemma fill_mp_none (imlist : List FitsImage) (nstokes : Nat) (f : FitsFile)
    (h : firstSome (mpErrs imlist nstokes f) = none) :
    fill_cube_with_images_multiprocess imlist nstokes f =
      (update_fits_header (fillAllCont imlist nstokes (List.range imlist.length) f)
        (finalizeDict ((imlist.length : Nat) : Int)), none) := by
  unfold fill_cube_with_images_multiprocess
  rw [h]

lemma firstSome_eq_none_iff (l : List (Option FillErr)) :
    firstSome l = none ↔ ∀ a ∈ l, a = none := by
  unfold firstSome
  rw [List.head?_eq_none_iff, List.filterMap_eq_nil_iff]
  simp

lemma mpErrs_none (imlist : List FitsImage) (nstokes : Nat) (f : FitsFile)
    (hall : ∀ c ∈ List.range imlist.length, (insert_channel c f imlist nstokes).2 = none) :
    firstSome (mpErrs imlist nstokes f) = none := by
  rw [firstSome_eq_none_iff]
  intro a ha
  unfold mpErrs at ha
  obtain ⟨c, hc, rfl⟩ := List.mem_map.mp ha
  exact hall c hc

lemma fill_cube_seq_err (imlist : List FitsImage) (nstokes : Nat) (f f2 : FitsFile)
    (e : FillErr) (h : fillSeq imlist nstokes (List.range imlist.length) f = (f2, some e)) :
    fill_cube_with_images imlist nstokes f = (f2, some e) := by
  unfold fill_cube_with_images
  rw [h]

lemma fill_cube_seq_none (imlist : List FitsImage) (nstokes : Nat) (f f2 : FitsFile)
    (h : fillSeq imlist nstokes (List.range imlist.length) f = (f2, none)) :
    fill_cube_with_images imlist nstokes f =
      (update_fits_header f2 (finalizeDict ((f2.n1 : Int) + 1)), none) := by
  unfold fill_cube_with_images
  rw [h]


lemma fillSeq_all_none (imlist : List FitsImage) (nstokes : Nat) :
    ∀ (cs : List Nat) (f : FitsFile),
    (∀ c ∈ cs, (insert_channel c f imlist nstokes).2 = none) →
    fillSeq imlist nstokes cs f = (fillAllCont imlist nstokes cs f, none) := by
  intro cs
  induction cs with
  | nil => intro f _; rfl
  | cons c cs ih =>
    intro f hall
    have hc := hall c (List.mem_cons_self c cs)
    cases hstep : insert_channel c f imlist nstokes with
    | mk f2 oe =>
      rw [hstep] at hc
      simp only at hc
      subst hc
      have hrec : fillSeq imlist nstokes (c :: cs) f = fillSeq imlist nstokes cs f2 := by
        simp only [fillSeq, hstep]
      rw [hrec, fillAllCont_cons]
      have hf2 : (insert_channel c f imlist nstokes).1 = f2 := by rw [hstep]
      rw [hf2]
      apply ih
      intro d hd
      obtain ⟨e1, e2, e3, e4, e5, e6⟩ := insert_channel_preserve c f imlist nstokes
      rw [hf2] at e2 e3 e4 e5
      rw [insert_channel_snd_eq d f2 f imlist nstokes e2 e3 e4 e5]
      exact hall d (List.mem_cons_of_mem c hd)

/-- A synthetic input of numpy shape (P, 1, X, X) whose plane p is the
constant v p. -/
def constImage (P X : Nat) (v : Nat → Int) : FitsImage :=
  ⟨[P, 1, X, X], fun idx => v (idx.headD 0)⟩

/-- N synthetic inputs, input i holding constant v i p on plane p. -/
def constImlist (N P X : Nat) (v : Nat → Nat → Int) : List FitsImage :=
  (List.range N).map (fun i => constImage P X (v i))

lemma constImlist_length (N P X : Nat) (v : Nat → Nat → Int) :
    (constImlist N P X v).length = N := by
  simp [constImlist]

lemma constImlist_get (N P X : Nat) (v : Nat → Nat → Int) (c : Nat) (hc : c < N) :
    (constImlist N P X v).get? c = some (constImage P X (v c)) := by
  unfold constImlist
  rw [List.get?_map, List.get?_range hc]
  rfl

lemma squeeze_constImage (P X : Nat) (hX : 2 ≤ X) (v : Nat → Int) :
    squeeze (constImage P X v).shape = if P = 1 then [X, X] else [P, X, X] := by
  have hXne : (X != 1) = true := by
    simp [bne_iff_ne]
    omega
  show squeeze [P, 1, X, X] = _
  unfold squeeze
  by_cases hP : P = 1
  · subst hP
    simp [List.filter_cons, hXne]
  · have hPne : (P != 1) = true := by
      simp [bne_iff_ne]
      exact hP
    simp [List.filter_cons, hXne, hPne, hP]

lemma spatial_constImlist (N P X : Nat) (v : Nat → Nat → Int) (hN : 1 ≤ N) (hX : 2 ≤ X) :
    spatialX (constImlist N P X v) = X ∧ spatialY (constImlist N P X v) = X := by
  obtain ⟨k, rfl⟩ : ∃ k, N = k + 1 := ⟨N - 1, by omega⟩
  have hcons : constImlist (k + 1) P X v =
      constImage P X (v 0) :: (List.range k).map (fun i => constImage P X (v (i + 1))) := by
    simp [constImlist, List.range_succ_eq_map, Function.comp]
  rw [hcons]
  constructor
  · show (squeeze (constImage P X (v 0)).shape).getD
      ((squeeze (constImage P X (v 0)).shape).length - 2) 0 = X
    rw [squeeze_constImage P X hX (v 0)]
    by_cases hP : P = 1
    · simp [hP]
    · simp [hP]
  · show (squeeze (constImage P X (v 0)).shape).getD
      ((squeeze (constImage P X (v 0)).shape).length - 1) 0 = X
    rw [squeeze_constImage P X hX (v 0)]
    by_cases hP : P = 1
    · simp [hP]
    · simp [hP]

lemma goodInput_constImage (f : FitsFile) (P X : Nat) (v : Nat → Int)
    (h2 : f.n2 = X) (h3 : f.n3 = X) : goodInput f P (constImage P X v) := by
  refine ⟨rfl, ?_, ?_, ?_, ?_⟩
  · show P ≤ [P, 1, X, X].getD 0 0
    simp
  · show 1 ≤ [P, 1, X, X].getD 1 0
    simp [List.getD]
  · show [P, 1, X, X].getD 2 0 = f.n2
    simp [List.getD, h2]
  · show [P, 1, X, X].getD 3 0 = f.n3
    simp [List.getD, h3]

lemma sliceGet_err_short (img : FitsImage) (ss : Nat) (h : img.shape.length < 4) :
    sliceGet img ss = Except.error FillErr.indexError := by
  unfold sliceGet
  rw [if_pos h]

lemma sliceGet_err_oob (img : FitsImage) (ss : Nat) (h4 : ¬ img.shape.length < 4)
    (h : ¬(ss < img.shape.getD 0 0 ∧ 0 < img.shape.getD 1 0)) :
    sliceGet img ss = Except.error FillErr.indexError := by
  unfold sliceGet
  rw [if_neg h4, if_neg h]

lemma setSlice_err_ndim (f : FitsFile) (ss chan : Nat) (sl : Slice)
    (hbound : ss < f.n0 ∧ chan < f.n1) (h : sl.shape.length ≠ 2) :
    setSlice f ss chan sl = Except.error FillErr.valueError := by
  unfold setSlice
  rw [if_pos hbound, if_neg (by rintro ⟨hl, -, -⟩; exact h hl)]

lemma insertStep_slice_err (img : FitsImage) (chan : Nat) (f : FitsFile) (ss : Nat)
    (e : FillErr) (hsl : sliceGet img ss = Except.error e) :
    insertStep img chan f ss = (f, some e) := by
  simp only [insertStep, hsl]

lemma insertStep_set_err (img : FitsImage) (chan : Nat) (f : FitsFile) (ss : Nat)
    (sl : Slice) (e : FillErr) (hsl : sliceGet img ss = Except.ok sl)
    (hset : setSlice f ss chan sl = Except.error e) :
    insertStep img chan f ss = (f, some e) := by
  simp only [insertStep, hsl, hset]

lemma insertLoop_head_err (img : FitsImage) (chan : Nat) (f : FitsFile) (ss : Nat)
    (rest : List Nat) (e : FillErr) (hstep : insertStep img chan f ss = (f, some e)) :
    insertLoop img chan (ss :: rest) f = (f, some e) := by
  simp only [insertLoop, hstep]

/-- The concrete scenario of the spec: 3 inputs, X = Y = 4, 2 planes,
input i holding (i+1)*10 + p on plane p. -/
def scenImlist : List FitsImage :=
  constImlist 3 2 4 (fun i p => ((i : Int) + 1) * 10 + (p : Int))

/-- The skeleton `make_empty_image scenImlist 2` produces. -/
def scenSkel : FitsFile :=
  { header := buildHeader 4 4 3 2, n0 := 2, n1 := 3, n2 := 4, n3 := 4,
    dataSize := 2880, data := fun _ _ _ _ => 0 }

def c10img : FitsImage := ⟨[2, 1, 4, 4], fun _ => 7⟩

def c10skel : FitsFile :=
  { header := buildHeader 4 4 1 4, n0 := 4, n1 := 1, n2 := 4, n3 := 4,
    dataSize := 2880, data := fun _ _ _ _ => 0 }

def c4img : FitsImage := ⟨[1, 1, 2, 3], fun _ => 10⟩

def c4skel : FitsFile :=
  { header := buildHeader 2 3 1 1, n0 := 1, n1 := 1, n2 := 3, n3 := 2,
    dataSize := 2880, data := fun _ _ _ _ => 0 }

/-- Claim C1: for a non-empty input list whose first image has squeezed
trailing spatial shape (X, Y), any plane count, and Depth = list length,
`make_empty_image` produces a file of size exactly
headerSize + ceil(X*Y*Depth*Planes*4 / 2880) * 2880 bytes, and the
rounding expression 2880 * (((n - 1) // 2880) + 1) of the code equals
that ceiling for every positive n. -/
theorem C1_skeleton_file_size (imlist : List FitsImage) (nstokes : Nat) (f : FitsFile)
    (n : Nat) (h : make_empty_image imlist nstokes = some f)
    (hpos : 1 ≤ spatialX imlist * spatialY imlist * imlist.length * nstokes)
    (hn : 1 ≤ n) :
    (fileSize f : Int) = (headerByteSize f.header : Int) +
      2880 * ⌈((spatialX imlist * spatialY imlist * imlist.length * nstokes * 4 : Nat) : ℚ)
        / 2880⌉ ∧
    (2880 : Int) * (((n : Int) - 1).fdiv 2880 + 1) = 2880 * ⌈(n : ℚ) / 2880⌉ := by
  constructor
  · obtain ⟨hh, -, -, -, -, hds, -⟩ := make_empty_image_elim imlist nstokes f h
    have hraw : 1 ≤ rawDataSize imlist nstokes := by
      unfold rawDataSize
      have h4 := Nat.mul_le_mul_right 4 hpos
      omega
    have hceil : 0 < ⌈((rawDataSize imlist nstokes : Nat) : ℚ) / 2880⌉ := by
      rw [Int.ceil_pos]
      apply div_pos
      · exact_mod_cast hraw
      · norm_num
    have hkey : skelDataSize 2880 (rawDataSize imlist nstokes) =
        2880 * ⌈((rawDataSize imlist nstokes : Nat) : ℚ) / 2880⌉ := by
      unfold skelDataSize
      rw [paddedSize_eq_ceil _ hraw]
      omega
    unfold fileSize
    rw [hh, buildHeader_size]
    rw [show (spatialX imlist * spatialY imlist * imlist.length * nstokes * 4 : Nat) =
      rawDataSize imlist nstokes from rfl]
    rw [Nat.cast_add, hds, hkey]
  · have hpse := paddedSize_eq_ceil n hn
    unfold paddedSize at hpse
    exact hpse

/-- Witness for C1 at the concrete 3-input scenario and n = 5. -/
theorem C1_skeleton_file_size_witness :
    (fileSize scenSkel : Int) = (headerByteSize scenSkel.header : Int) +
      2880 * ⌈((spatialX scenImlist * spatialY scenImlist * scenImlist.length * 2 * 4 : Nat)
        : ℚ) / 2880⌉ ∧
    (2880 : Int) * ((((5 : Nat) : Int) - 1).fdiv 2880 + 1) =
      2880 * ⌈((5 : Nat) : ℚ) / 2880⌉ :=
  C1_skeleton_file_size scenImlist 2 scenSkel 5 rfl (by decide) (by decide)

/-- Claim C2 (evaluated at the spec scenario of 3 inputs, 2 planes,
X = Y = 4): after the sequential path `fill_cube_with_images` the header
reads NAXIS3 = 4 (that is depthCount + 1, from
`outdata.shape[1] + 1`), not depthCount = 3 as the spec states, while
CRPIX3 = 1 and CTYPE3 = FREQ are as stated; the concurrent path
`fill_cube_with_images_multiprocess` writes NAXIS3 = 3 = depthCount,
CRPIX3 = 1 and CTYPE3 = FREQ as stated. -/
theorem C2_naxis3_eval :
    make_empty_image scenImlist 2 = some scenSkel ∧
    (fill_cube_with_images scenImlist 2 scenSkel).2 = none ∧
    headerGet (fill_cube_with_images scenImlist 2 scenSkel).1.header "NAXIS3" =
      some (HVal.int 4) ∧
    headerGet (fill_cube_with_images scenImlist 2 scenSkel).1.header "CRPIX3" =
      some (HVal.int 1) ∧
    headerGet (fill_cube_with_images scenImlist 2 scenSkel).1.header "CTYPE3" =
      some (HVal.str "FREQ") ∧
    (fill_cube_with_images_multiprocess scenImlist 2 scenSkel).2 = none ∧
    headerGet (fill_cube_with_images_multiprocess scenImlist 2 scenSkel).1.header
      "NAXIS3" = some (HVal.int 3) ∧
    headerGet (fill_cube_with_images_multiprocess scenImlist 2 scenSkel).1.header
      "CRPIX3" = some (HVal.int 1) ∧
    headerGet (fill_cube_with_images_multiprocess scenImlist 2 scenSkel).1.header
      "CTYPE3" = some (HVal.str "FREQ") :=
  ⟨rfl, by decide, by decide, by decide, by decide, by decide, by decide, by decide,
    by decide⟩

/-- Claim C3: `insert_channel` with depth index `chan` leaves every cell
of any other channel unchanged, leaves every plane at or above `nstokes`
unchanged, and mutates no header or metadata field. -/
theorem C3_fill_channel_frame (imlist : List FitsImage) (nstokes chan : Nat)
    (f : FitsFile) (s c y x : Nat) (h : c ≠ chan ∨ nstokes ≤ s) :
    (insert_channel chan f imlist nstokes).1.data s c y x = f.data s c y x ∧
    (insert_channel chan f imlist nstokes).1.header = f.header ∧
    (insert_channel chan f imlist nstokes).1.n0 = f.n0 ∧
    (insert_channel chan f imlist nstokes).1.n1 = f.n1 ∧
    (insert_channel chan f imlist nstokes).1.n2 = f.n2 ∧
    (insert_channel chan f imlist nstokes).1.n3 = f.n3 ∧
    (insert_channel chan f imlist nstokes).1.dataSize = f.dataSize :=
  ⟨insert_channel_frame chan f imlist nstokes s c y x h,
   insert_channel_preserve chan f imlist nstokes⟩

/-- Witness for C3: channel 1 of the scenario skeleton is untouched by a
fill of channel 0. -/
theorem C3_fill_channel_frame_witness :
    (insert_channel 0 scenSkel scenImlist 2).1.data 0 1 0 0 = scenSkel.data 0 1 0 0 ∧
    (insert_channel 0 scenSkel scenImlist 2).1.header = scenSkel.header ∧
    (insert_channel 0 scenSkel scenImlist 2).1.n0 = scenSkel.n0 ∧
    (insert_channel 0 scenSkel scenImlist 2).1.n1 = scenSkel.n1 ∧
    (insert_channel 0 scenSkel scenImlist 2).1.n2 = scenSkel.n2 ∧
    (insert_channel 0 scenSkel scenImlist 2).1.n3 = scenSkel.n3 ∧
    (insert_channel 0 scenSkel scenImlist 2).1.dataSize = scenSkel.dataSize :=
  C3_fill_channel_frame scenImlist 2 0 scenSkel 0 1 0 0 (Or.inl (by decide))

/-- Claim C4, counterexample: a synthetic single-input set of non-square
spatial shape (numpy spatial axes 2 x 3) with constant value 10 is
accepted by `make_empty_image`, but the skeleton transposes NAXIS1/NAXIS2
relative to the input slice orientation, so the fill fails with a
broadcast ValueError and reading back channel 0, plane 0 yields the
untouched zero, not 10 — refuting the round-trip claim as stated for
arbitrary shapes. -/
theorem C4_roundtrip_counterexample :
    make_empty_image [c4img] 1 = some c4skel ∧
    (fill_cube_with_images [c4img] 1 c4skel).2 = some FillErr.valueError ∧
    (fill_cube_with_images_multiprocess [c4img] 1 c4skel).2 = some FillErr.valueError ∧
    (fill_cube_with_images_multiprocess [c4img] 1 c4skel).1.data 0 0 0 0 = 0 ∧
    c4img.pix [0, 0, 0, 0] = 10 ∧ (0 : Int) ≠ 10 :=
  ⟨rfl, by decide, by decide, by decide, rfl, by decide⟩

/-- Claim C4 as amended: for square spatial shape (X, X) with X at least
2, N inputs of numpy shape (P, 1, X, X) where input i holds constant
v i p on plane p, running `make_empty_image` and then filling all
channels (sequential or concurrent path) succeeds and reading back
channel i, plane p yields exactly v i p at every spatial coordinate. -/
theorem C4_roundtrip_square (N P X : Nat) (v : Nat → Nat → Int) (f : FitsFile)
    (i p y x : Nat) (hX : 2 ≤ X) (hi : i < N) (hp : p < P) (hy : y < X) (hx : x < X)
    (h : make_empty_image (constImlist N P X v) P = some f) :
    (fill_cube_with_images (constImlist N P X v) P f).2 = none ∧
    (fill_cube_with_images (constImlist N P X v) P f).1.data p i y x = v i p ∧
    (fill_cube_with_images_multiprocess (constImlist N P X v) P f).2 = none ∧
    (fill_cube_with_images_multiprocess (constImlist N P X v) P f).1.data p i y x =
      v i p := by
  obtain ⟨hspx, hspy⟩ := spatial_constImlist N P X v (by omega) hX
  obtain ⟨hh, h0, h1, h2, h3, hds, hzero⟩ :=
    make_empty_image_elim (constImlist N P X v) P f h
  rw [hspy] at h2
  rw [hspx] at h3
  rw [constImlist_length] at h1
  have hgood : ∀ c, c < N → goodInput f P (constImage P X (v c)) :=
    fun c _ => goodInput_constImage f P X (v c) h2 h3
  have hall : ∀ c ∈ List.range (constImlist N P X v).length,
      (insert_channel c f (constImlist N P X v) P).2 = none := by
    intro c hc
    rw [constImlist_length] at hc
    have hcN : c < N := List.mem_range.mp hc
    exact insert_channel_good_none c f (constImlist N P X v) P (constImage P X (v c))
      (constImlist_get N P X v c hcN) (hgood c hcN) (by omega) (by omega)
  have hseq := fillSeq_all_none (constImlist N P X v) P
    (List.range (constImlist N P X v).length) f hall
  have hdata : (fillAllCont (constImlist N P X v) P
      (List.range (constImlist N P X v).length) f).data p i y x = v i p := by
    have hchar := fillAllCont_good_data (constImlist N P X v) P
      (List.range (constImlist N P X v).length) f i (constImage P X (v i))
      (by rw [constImlist_length]; exact List.mem_range.mpr hi)
      (constImlist_get N P X v i hi) (hgood i hi) (by omega) (by omega)
      p y x hp (by omega) (by omega)
    rw [hchar]
    show (constImage P X (v i)).pix [p, 0,
      if (constImage P X (v i)).shape.getD 2 0 = 1 then 0 else y,
      if (constImage P X (v i)).shape.getD 3 0 = 1 then 0 else x] = v i p
    have hg2 : (constImage P X (v i)).shape.getD 2 0 = X := by
      show [P, 1, X, X].getD 2 0 = X
      simp [List.getD]
    have hg3 : (constImage P X (v i)).shape.getD 3 0 = X := by
      show [P, 1, X, X].getD 3 0 = X
      simp [List.getD]
    rw [hg2, hg3, if_neg (by omega), if_neg (by omega)]
    rfl
  refine ⟨?_, ?_, ?_, ?_⟩
  · rw [fill_cube_seq_none (constImlist N P X v) P f _ hseq]
  · rw [fill_cube_seq_none (constImlist N P X v) P f _ hseq]
    exact hdata
  · rw [fill_mp_none (constImlist N P X v) P f (mpErrs_none _ _ _ hall)]
  · rw [fill_mp_none (constImlist N P X v) P f (mpErrs_none _ _ _ hall)]
    exact hdata

/-- Witness for C4 at the concrete scenario: the pixel at plane 1,
depth 2 reads (2+1)*10 + 1 = 31. -/
theorem C4_roundtrip_square_witness :
    (fill_cube_with_images
      (constImlist 3 2 4 (fun i p => ((i : Int) + 1) * 10 + (p : Int))) 2 scenSkel).2 =
      none ∧
    (fill_cube_with_images
      (constImlist 3 2 4 (fun i p => ((i : Int) + 1) * 10 + (p : Int))) 2
      scenSkel).1.data 1 2 0 0 = 31 ∧
    (fill_cube_with_images_multiprocess
      (constImlist 3 2 4 (fun i p => ((i : Int) + 1) * 10 + (p : Int))) 2 scenSkel).2 =
      none ∧
    (fill_cube_with_images_multiprocess
      (constImlist 3 2 4 (fun i p => ((i : Int) + 1) * 10 + (p : Int))) 2
      scenSkel).1.data 1 2 0 0 = 31 := by
  have hw := C4_roundtrip_square 3 2 4 (fun i p => ((i : Int) + 1) * 10 + (p : Int))
    scenSkel 2 1 0 0 (by decide) (by decide) (by decide) (by decide) (by decide)
    (by rfl)
  refine ⟨hw.1, ?_, hw.2.2.1, ?_⟩
  · rw [hw.2.1]
    decide
  · rw [hw.2.2.2]
    decide

/-- Claim C5: the final data region is independent of the order the
per-depth-index units run in — folding the units over any permutation of
an index list gives the same file; and on an error-free run the
sequential path, the concurrent path and the unordered fold all produce
byte-identical data regions. -/
theorem C5_order_independence (imlist : List FitsImage) (nstokes : Nat) (f : FitsFile)
    (cs1 cs2 : List Nat) (hperm : cs1.Perm cs2)
    (hseq : (fillSeq imlist nstokes (List.range imlist.length) f).2 = none) :
    fillAllCont imlist nstokes cs1 f = fillAllCont imlist nstokes cs2 f ∧
    (fillSeq imlist nstokes (List.range imlist.length) f).1 =
      fillAllCont imlist nstokes (List.range imlist.length) f ∧
    (fill_cube_with_images imlist nstokes f).1.data =
      (fillAllCont imlist nstokes (List.range imlist.length) f).data ∧
    (fill_cube_with_images_multiprocess imlist nstokes f).1.data =
      (fillAllCont imlist nstokes (List.range imlist.length) f).data := by
  obtain ⟨hq, hall⟩ := fillSeq_none_eq imlist nstokes (List.range imlist.length) f hseq
  refine ⟨fillAllCont_perm imlist nstokes hperm f, hq, ?_, ?_⟩
  · cases hseqp : fillSeq imlist nstokes (List.range imlist.length) f with
    | mk f2 oe =>
      cases oe with
      | some e =>
        rw [hseqp] at hseq
        exact absurd hseq (by simp)
      | none =>
        rw [fill_cube_seq_none imlist nstokes f f2 hseqp]
        have hf2 : f2 = fillAllCont imlist nstokes (List.range imlist.length) f := by
          rw [← hq, hseqp]
        rw [hf2]
        rfl
  · rw [fill_mp_none imlist nstokes f (mpErrs_none imlist nstokes f hall)]
    rfl

/-- Witness for C5 at the scenario with the reversed submission order. -/
theorem C5_order_independence_witness :
    fillAllCont scenImlist 2 [0, 1, 2] scenSkel =
      fillAllCont scenImlist 2 [2, 1, 0] scenSkel ∧
    (fillSeq scenImlist 2 (List.range scenImlist.length) scenSkel).1 =
      fillAllCont scenImlist 2 (List.range scenImlist.length) scenSkel ∧
    (fill_cube_with_images scenImlist 2 scenSkel).1.data =
      (fillAllCont scenImlist 2 (List.range scenImlist.length) scenSkel).data ∧
    (fill_cube_with_images_multiprocess scenImlist 2 scenSkel).1.data =
      (fillAllCont scenImlist 2 (List.range scenImlist.length) scenSkel).data :=
  C5_order_independence scenImlist 2 scenSkel [0, 1, 2] [2, 1, 0] (by decide) (by decide)

/-- Claim C6: in the concurrent path all submitted units run to
completion and are then inspected in submission order; when any unit
failed, the first such error is re-raised, header finalization does not
happen (the header is left exactly as it was), and the writes of every
successful unit are nevertheless present in the data region. -/
theorem C6_mp_error_surfaced (imlist : List FitsImage) (nstokes : Nat) (f : FitsFile)
    (e : FillErr) (c : Nat) (img : FitsImage) (s y x : Nat)
    (hfail : firstSome (mpErrs imlist nstokes f) = some e)
    (hget : imlist.get? c = some img) (hg : goodInput f nstokes img)
    (hn0 : nstokes ≤ f.n0) (hn1 : c < f.n1)
    (hs : s < nstokes) (hy : y < f.n2) (hx : x < f.n3) :
    (fill_cube_with_images_multiprocess imlist nstokes f).2 = some e ∧
    (fill_cube_with_images_multiprocess imlist nstokes f).1.header = f.header ∧
    (fill_cube_with_images_multiprocess imlist nstokes f).1.data s c y x =
      stepValAbs img s y x := by
  rw [fill_mp_err imlist nstokes f e hfail]
  refine ⟨rfl, (fillAllCont_preserve imlist nstokes (List.range imlist.length) f).1, ?_⟩
  have hlt : c < imlist.length := by
    obtain ⟨hl, -⟩ := List.get?_eq_some.mp hget
    exact hl
  exact fillAllCont_good_data imlist nstokes (List.range imlist.length) f c img
    (List.mem_range.mpr hlt) hget hg hn0 hn1 s y x hs hy hx

def c6bad : FitsImage := ⟨[3], fun _ => 5⟩

def c6good : FitsImage := ⟨[1, 1, 2, 2], fun _ => 9⟩

def c6file : FitsFile :=
  { header := [("SIMPLE", HVal.bool true)], n0 := 1, n1 := 2, n2 := 2, n3 := 2,
    dataSize := 2880, data := fun _ _ _ _ => 0 }

/-- Witness for C6: one failing unit (a 1-axis input) and one successful
unit; the error is surfaced, the header untouched, the good channel
filled. -/
theorem C6_mp_error_surfaced_witness :
    (fill_cube_with_images_multiprocess [c6bad, c6good] 1 c6file).2 =
      some FillErr.indexError ∧
    (fill_cube_with_images_multiprocess [c6bad, c6good] 1 c6file).1.header =
      c6file.header ∧
    (fill_cube_with_images_multiprocess [c6bad, c6good] 1 c6file).1.data 0 1 0 0 =
      stepValAbs c6good 0 0 0 :=
  C6_mp_error_surfaced [c6bad, c6good] 1 c6file FillErr.indexError 1 c6good 0 0 0
    (by decide) rfl ⟨rfl, by decide, by decide, by decide, by decide⟩ (by decide)
    (by decide) (by decide) (by decide) (by decide)

/-- Claim C7: once the skeleton exists, the total file size never
changes — any sequence of channel fills (in either orchestration) and
the header finalization dict are in-place mutations. -/
theorem C7_file_size_invariant (imlist : List FitsImage) (nstokes : Nat) (f : FitsFile)
    (cs : List Nat) (v : Int) (h : make_empty_image imlist nstokes = some f) :
    fileSize (fillAllCont imlist nstokes cs f) = fileSize f ∧
    fileSize (fillSeq imlist nstokes cs f).1 = fileSize f ∧
    fileSize (update_fits_header (fillAllCont imlist nstokes cs f) (finalizeDict v)) =
      fileSize f ∧
    fileSize (fill_cube_with_images imlist nstokes f).1 = fileSize f ∧
    fileSize (fill_cube_with_images_multiprocess imlist nstokes f).1 = fileSize f := by
  obtain ⟨hh, -⟩ := make_empty_image_elim imlist nstokes f h
  refine ⟨fileSize_fillAllCont imlist nstokes cs f, fileSize_fillSeq imlist nstokes cs f,
    ?_, ?_, ?_⟩
  · rw [fileSize_update_finalize _ _ _ _ _ v
      ((fillAllCont_preserve imlist nstokes cs f).1.trans hh)]
    exact fileSize_fillAllCont imlist nstokes cs f
  · cases hseq : fillSeq imlist nstokes (List.range imlist.length) f with
    | mk f2 oe =>
      have hsz : fileSize f2 = fileSize f := by
        have hfs := fileSize_fillSeq imlist nstokes (List.range imlist.length) f
        rw [hseq] at hfs
        exact hfs
      have hh2 : f2.header =
          buildHeader (spatialX imlist) (spatialY imlist) imlist.length nstokes := by
        have hp := (fillSeq_preserve imlist nstokes (List.range imlist.length) f).1
        rw [hseq] at hp
        exact hp.trans hh
      cases oe with
      | some e =>
        rw [fill_cube_seq_err imlist nstokes f f2 e hseq]
        exact hsz
      | none =>
        rw [fill_cube_seq_none imlist nstokes f f2 hseq]
        have hu := fileSize_update_finalize f2 (spatialX imlist) (spatialY imlist)
          imlist.length nstokes ((f2.n1 : Int) + 1) hh2
        simp only at hu ⊢
        rw [hu]
        exact hsz
  · cases hfs : firstSome (mpErrs imlist nstokes f) with
    | some e =>
      rw [fill_mp_err imlist nstokes f e hfs]
      exact fileSize_fillAllCont imlist nstokes (List.range imlist.length) f
    | none =>
      rw [fill_mp_none imlist nstokes f hfs]
      rw [fileSize_update_finalize _ _ _ _ _ ((imlist.length : Nat) : Int)
        ((fillAllCont_preserve imlist nstokes (List.range imlist.length) f).1.trans hh)]
      exact fileSize_fillAllCont imlist nstokes (List.range imlist.length) f

/-- Witness for C7 at the scenario with a repeated-index fill list and
NAXIS3 value 7. -/
theorem C7_file_size_invariant_witness :
    fileSize (fillAllCont scenImlist 2 [2, 0, 0] scenSkel) = fileSize scenSkel ∧
    fileSize (fillSeq scenImlist 2 [2, 0, 0] scenSkel).1 = fileSize scenSkel ∧
    fileSize (update_fits_header (fillAllCont scenImlist 2 [2, 0, 0] scenSkel)
      (finalizeDict 7)) = fileSize scenSkel ∧
    fileSize (fill_cube_with_images scenImlist 2 scenSkel).1 = fileSize scenSkel ∧
    fileSize (fill_cube_with_images_multiprocess scenImlist 2 scenSkel).1 =
      fileSize scenSkel :=
  C7_file_size_invariant scenImlist 2 scenSkel [2, 0, 0] 7 rfl

/-- Claim C8: the skeleton header carries reference pixels at the
geometric center of the two spatial axes: CRPIX1 = floor(X/2) and
CRPIX2 = floor(Y/2), for X, Y the trailing two squeezed axes of the
first input. -/
theorem C8_crpix_center (imlist : List FitsImage) (nstokes : Nat) (f : FitsFile)
    (h : make_empty_image imlist nstokes = some f) :
    headerGet f.header "CRPIX1" = some (HVal.int ((spatialX imlist / 2 : Nat) : Int)) ∧
    headerGet f.header "CRPIX2" = some (HVal.int ((spatialY imlist / 2 : Nat) : Int)) := by
  obtain ⟨hh, -⟩ := make_empty_image_elim imlist nstokes f h
  rw [hh, buildHeader_eq]
  constructor
  · rfl
  · rfl

/-- Witness for C8 at the scenario skeleton: CRPIX1 = CRPIX2 = 2. -/
theorem C8_crpix_center_witness :
    headerGet scenSkel.header "CRPIX1" =
      some (HVal.int ((spatialX scenImlist / 2 : Nat) : Int)) ∧
    headerGet scenSkel.header "CRPIX2" =
      some (HVal.int ((spatialY scenImlist / 2 : Nat) : Int)) :=
  C8_crpix_center scenImlist 2 scenSkel rfl

/-- Claim C9: refilling the same depth index with the same input is
idempotent — the second `insert_channel` call leaves the file (and the
reported outcome) exactly as the first call left them. -/
theorem C9_refill_idempotent (imlist : List FitsImage) (nstokes chan : Nat)
    (f : FitsFile) :
    insert_channel chan (insert_channel chan f imlist nstokes).1 imlist nstokes =
      insert_channel chan f imlist nstokes := by
  obtain ⟨p1, p2, p3, p4, p5, p6⟩ := insert_channel_preserve chan f imlist nstokes
  apply Prod.ext
  · cases hget : imlist.get? chan with
    | none =>
      rw [insert_channel_get_none chan ((insert_channel chan f imlist nstokes).1)
        imlist nstokes hget]
    | some img =>
      obtain ⟨q1, q2, q3, q4, q5, q6⟩ :=
        insert_channel_preserve chan ((insert_channel chan f imlist nstokes).1) imlist
          nstokes
      apply FitsFile.ext
      · rw [q1, p1]
      · rw [q2, p2]
      · rw [q3, p3]
      · rw [q4, p4]
      · rw [q5, p5]
      · rw [q6, p6]
      · funext s c y x
        rw [insert_channel_data_some chan ((insert_channel chan f imlist nstokes).1)
          imlist nstokes img hget s c y x]
        simp only [p2, p3, p4, p5]
        rw [insert_channel_data_some chan f imlist nstokes img hget s c y x]
        by_cases hc : c = chan ∧
            s ∈ planesWritten img chan f.n0 f.n1 f.n2 f.n3 (List.range nstokes) ∧
            y < f.n2 ∧ x < f.n3
        · simp only [if_pos hc]
        · simp only [if_neg hc]
  · exact insert_channel_snd_eq chan ((insert_channel chan f imlist nstokes).1) f
      imlist nstokes p2 p3 p4 p5

/-- Claim C10, counterexample: the 4-axis input of numpy shape
(2, 1, 4, 4) has fewer planes than nstokes = 4, so it lies in the claims
failing set and is accepted by `make_empty_image` as first input; the
fill does fail with an indexing error as claimed, but it does NOT write
nothing: plane 0 of channel 0 now holds the input value 7 where the
skeleton held 0. -/
theorem C10_strict4d_counterexample :
    make_empty_image [c10img] 4 = some c10skel ∧
    ¬(c10img.shape.length = 4 ∧ 4 ≤ c10img.shape.getD 0 0 ∧
      1 ≤ c10img.shape.getD 1 0) ∧
    (insert_channel 0 c10skel [c10img] 4).2 = some FillErr.indexError ∧
    (insert_channel 0 c10skel [c10img] 4).1.data 0 0 0 0 = 7 ∧
    c10skel.data 0 0 0 0 = 0 :=
  ⟨rfl, by decide, by decide, by decide, rfl⟩

/-- Claim C10 as amended: the fill indexes inputs strictly 4-d (no
squeezing), so with at least one plane requested, a valid channel index
and slice axes compatible with the output, every input outside the good
set makes `insert_channel` fail — with an IndexError and no writes when
the array has fewer than 4 axes or an empty first or second axis; with
an IndexError after writing exactly the planes below the first-axis
length when the array is 4-axis with too few planes; and with a
broadcast ValueError and no writes when the array has more than 4
axes. -/
theorem C10_strict4d_amended (imlist : List FitsImage) (nstokes chan : Nat)
    (f : FitsFile) (img : FitsImage) (hget : imlist.get? chan = some img)
    (hst : 1 ≤ nstokes)
    (hbad : ¬(img.shape.length = 4 ∧ nstokes ≤ img.shape.getD 0 0 ∧
      1 ≤ img.shape.getD 1 0))
    (hn0 : nstokes ≤ f.n0) (hn1 : chan < f.n1)
    (hb2 : img.shape.getD 2 0 = f.n2 ∨ img.shape.getD 2 0 = 1)
    (hb3 : img.shape.getD 3 0 = f.n3 ∨ img.shape.getD 3 0 = 1) :
    (insert_channel chan f imlist nstokes).2.isSome = true ∧
    (img.shape.length < 4 ∨ img.shape.getD 0 0 = 0 ∨ img.shape.getD 1 0 = 0 →
      (insert_channel chan f imlist nstokes).2 = some FillErr.indexError ∧
      (insert_channel chan f imlist nstokes).1 = f) ∧
    (img.shape.length = 4 → 1 ≤ img.shape.getD 0 0 → 1 ≤ img.shape.getD 1 0 →
      (insert_channel chan f imlist nstokes).2 = some FillErr.indexError ∧
      ∀ s c y x, (insert_channel chan f imlist nstokes).1.data s c y x =
        (if c = chan ∧ s < img.shape.getD 0 0 ∧ y < f.n2 ∧ x < f.n3
         then stepValAbs img s y x else f.data s c y x)) ∧
    (4 < img.shape.length → 1 ≤ img.shape.getD 0 0 → 1 ≤ img.shape.getD 1 0 →
      (insert_channel chan f imlist nstokes).2 = some FillErr.valueError ∧
      (insert_channel chan f imlist nstokes).1 = f) := by
  obtain ⟨k, rfl⟩ : ∃ k, nstokes = k + 1 := ⟨nstokes - 1, by omega⟩
  have hbranch2 : img.shape.length < 4 ∨ img.shape.getD 0 0 = 0 ∨
      img.shape.getD 1 0 = 0 →
      insert_channel chan f imlist (k + 1) = (f, some FillErr.indexError) := by
    intro hcase
    have hstep : insertStep img chan f 0 = (f, some FillErr.indexError) := by
      by_cases h4 : img.shape.length < 4
      · exact insertStep_slice_err img chan f 0 FillErr.indexError
          (sliceGet_err_short img 0 h4)
      · refine insertStep_slice_err img chan f 0 FillErr.indexError
          (sliceGet_err_oob img 0 h4 ?_)
        rintro ⟨hlt0, hlt1⟩
        rcases hcase with hw | hw | hw
        · exact h4 hw
        · omega
        · omega
    unfold insert_channel
    rw [hget, List.range_succ_eq_map]
    exact insertLoop_head_err img chan f 0 _ FillErr.indexError hstep
  have hbranch4 : 4 < img.shape.length → 1 ≤ img.shape.getD 0 0 →
      1 ≤ img.shape.getD 1 0 →
      insert_channel chan f imlist (k + 1) = (f, some FillErr.valueError) := by
    intro hgt hs0 hs1
    have hsl := sliceGet_of_ok img 0 (by omega) (by omega) (by omega)
    have hset : setSlice f 0 chan
        ⟨img.shape.drop 2, fun idx => img.pix (0 :: 0 :: idx)⟩ =
        Except.error FillErr.valueError := by
      refine setSlice_err_ndim f 0 chan _ ⟨by omega, hn1⟩ ?_
      show (img.shape.drop 2).length ≠ 2
      rw [List.length_drop]
      omega
    have hstep := insertStep_set_err img chan f 0 _ FillErr.valueError hsl hset
    unfold insert_channel
    rw [hget, List.range_succ_eq_map]
    exact insertLoop_head_err img chan f 0 _ FillErr.valueError hstep
  have hbranch3 : img.shape.length = 4 → 1 ≤ img.shape.getD 0 0 →
      1 ≤ img.shape.getD 1 0 →
      (insert_channel chan f imlist (k + 1)).2 = some FillErr.indexError ∧
      ∀ s c y x, (insert_channel chan f imlist (k + 1)).1.data s c y x =
        (if c = chan ∧ s < img.shape.getD 0 0 ∧ y < f.n2 ∧ x < f.n3
         then stepValAbs img s y x else f.data s c y x) := by
    intro hlen4 hs0 hs1
    have hs0lt : img.shape.getD 0 0 < k + 1 := by
      by_contra hcon
      exact hbad ⟨hlen4, by omega, hs1⟩
    have hallok : ∀ ss ∈ List.range (img.shape.getD 0 0),
        stepOk img chan ss f.n0 f.n1 f.n2 f.n3 := by
      intro ss hss
      have hlt := List.mem_range.mp hss
      exact ⟨hlen4, by omega, by omega, by omega, hn1, hb2, hb3⟩
    have hpw := planesWritten_all_ok img chan f.n0 f.n1 f.n2 f.n3
      (List.range (img.shape.getD 0 0)) hallok
    have hnone1 := insertLoop_none_of_all_ok img chan
      (List.range (img.shape.getD 0 0)) f hallok
    have hsplit : List.range (k + 1) = List.range (img.shape.getD 0 0) ++
        (List.range (k + 1 - img.shape.getD 0 0)).map (img.shape.getD 0 0 + ·) := by
      rw [← List.range_add]
      congr 1
      omega
    have hins : insert_channel chan f imlist (k + 1) =
        ((insertLoop img chan (List.range (img.shape.getD 0 0)) f).1,
          some FillErr.indexError) := by
      have hic : insert_channel chan f imlist (k + 1) =
          insertLoop img chan (List.range (k + 1)) f := by
        unfold insert_channel
        rw [hget]
      rw [hic, hsplit, insertLoop_append]
      cases hl1 : insertLoop img chan (List.range (img.shape.getD 0 0)) f with
      | mk F oe1 =>
        rw [hl1] at hnone1
        simp only at hnone1
        subst hnone1
        simp only
        have hm : k + 1 - img.shape.getD 0 0 = (k - img.shape.getD 0 0) + 1 := by omega
        rw [hm, List.range_succ_eq_map, List.map_cons]
        have hstep : insertStep img chan F (img.shape.getD 0 0 + 0) =
            (F, some FillErr.indexError) := by
          refine insertStep_slice_err img chan F _ FillErr.indexError
            (sliceGet_err_oob img _ (by omega) ?_)
          rintro ⟨hlt0, -⟩
          omega
        exact insertLoop_head_err img chan F _ _ FillErr.indexError hstep
    rw [hins]
    refine ⟨rfl, ?_⟩
    intro s c y x
    have hd := insertLoop_data img chan (List.range (img.shape.getD 0 0)) f s c y x
    rw [hpw] at hd
    rw [hd]
    by_cases hcond : c = chan ∧ s < img.shape.getD 0 0 ∧ y < f.n2 ∧ x < f.n3
    · rw [if_pos ⟨hcond.1, List.mem_range.mpr hcond.2.1, hcond.2.2⟩, if_pos hcond]
    · rw [if_neg ?hc1, if_neg hcond]
      case hc1 =>
        rintro ⟨hq1, hq2, hq3⟩
        exact hcond ⟨hq1, List.mem_range.mp hq2, hq3⟩
  refine ⟨?_, ?_, hbranch3, ?_⟩
  · rcases Nat.lt_trichotomy img.shape.length 4 with h4 | h4 | h4
    · rw [hbranch2 (Or.inl h4)]
      rfl
    · by_cases hs0 : 1 ≤ img.shape.getD 0 0
      · by_cases hs1 : 1 ≤ img.shape.getD 1 0
        · rw [(hbranch3 h4 hs0 hs1).1]
          rfl
        · rw [hbranch2 (Or.inr (Or.inr (by omega)))]
          rfl
      · rw [hbranch2 (Or.inr (Or.inl (by omega)))]
        rfl
    · by_cases hs0 : 1 ≤ img.shape.getD 0 0
      · by_cases hs1 : 1 ≤ img.shape.getD 1 0
        · rw [hbranch4 h4 hs0 hs1]
          rfl
        · rw [hbranch2 (Or.inr (Or.inr (by omega)))]
          rfl
      · rw [hbranch2 (Or.inr (Or.inl (by omega)))]
        rfl
  · intro hcase
    rw [hbranch2 hcase]
    exact ⟨rfl, rfl⟩
  · intro hgt hs0 hs1
    rw [hbranch4 hgt hs0 hs1]
    exact ⟨rfl, rfl⟩

/-- Witness for the amended C10 at the counterexample input: a (2,1,4,4)
input with nstokes = 4. -/
theorem C10_strict4d_amended_witness :
    (insert_channel 0 c10skel [c10img] 4).2.isSome = true ∧
    (c10img.shape.length < 4 ∨ c10img.shape.getD 0 0 = 0 ∨ c10img.shape.getD 1 0 = 0 →
      (insert_channel 0 c10skel [c10img] 4).2 = some FillErr.indexError ∧
      (insert_channel 0 c10skel [c10img] 4).1 = c10skel) ∧
    (c10img.shape.length = 4 → 1 ≤ c10img.shape.getD 0 0 → 1 ≤ c10img.shape.getD 1 0 →
      (insert_channel 0 c10skel [c10img] 4).2 = some FillErr.indexError ∧
      ∀ s c y x, (insert_channel 0 c10skel [c10img] 4).1.data s c y x =
        (if c = 0 ∧ s < c10img.shape.getD 0 0 ∧ y < c10skel.n2 ∧ x < c10skel.n3
         then stepValAbs c10img s y x else c10skel.data s c y x)) ∧
    (4 < c10img.shape.length → 1 ≤ c10img.shape.getD 0 0 → 1 ≤ c10img.shape.getD 1 0 →
      (insert_channel 0 c10skel [c10img] 4).2 = some FillErr.valueError ∧
      (insert_channel 0 c10skel [c10img] 4).1 = c10skel) :=
  C10_strict4d_amended [c10img] 4 0 c10skel c10img rfl (by decide) (by decide)
    (by decide) (by decide) (Or.inl (by decide)) (Or.inl (by decide))

end Fitsconcat
